import Mathlib

/-!
Verification of the authentication/authorization core of the Simple Blog API
(`main.py`): credential store, login rate limiter, JWT token service, access
control and post repository, shallowly embedded as pure Lean functions over an
explicit server state.

Python dictionaries (`users_db`, `posts_db`, `login_attempts`) are embedded as
association lists in insertion order: `d[k] = v` replaces the binding in place
when the key exists and appends otherwise, `k in d` is a first-match lookup,
`d.pop(k)` removes the binding.  Timestamps (`time.time()`, `datetime.utcnow()`)
are modelled as natural-number seconds.
-/

section AssocList

variable {α : Type} {β : Type} [DecidableEq α]

/-- First-match lookup, the embedding of Python `d.get(k)` / `d[k]`. -/
def alist_lookup : List (α × β) → α → Option β
  | [], _ => none
  | (k', v) :: rest, k => if k' = k then some v else alist_lookup rest k

/-- The embedding of Python `d[k] = v`: replace the binding in place when the
key exists, append otherwise. -/
def alist_set : List (α × β) → α → β → List (α × β)
  | [], k, v => [(k, v)]
  | (k', v') :: rest, k, v =>
    if k' = k then (k, v) :: rest else (k', v') :: alist_set rest k v

/-- The embedding of Python `d.pop(k)`: remove the (first) binding for `k`. -/
def alist_erase : List (α × β) → α → List (α × β)
  | [], _ => []
  | (k', v') :: rest, k => if k' = k then rest else (k', v') :: alist_erase rest k

theorem alist_lookup_set_self (l : List (α × β)) (k : α) (v : β) :
    alist_lookup (alist_set l k v) k = some v := by
  induction l with
  | nil => simp [alist_set, alist_lookup]
  | cons hd tl ih =>
    obtain ⟨k', v'⟩ := hd
    by_cases h : k' = k
    · simp [alist_set, alist_lookup, h]
    · simp [alist_set, alist_lookup, h, ih]

theorem alist_lookup_set_ne (l : List (α × β)) (k k' : α) (v : β) (h : k' ≠ k) :
    alist_lookup (alist_set l k v) k' = alist_lookup l k' := by
  have hk : ¬ k = k' := fun h' => h h'.symm
  induction l with
  | nil => simp [alist_set, alist_lookup, hk]
  | cons hd tl ih =>
    obtain ⟨a, b⟩ := hd
    by_cases ha : a = k
    · subst ha
      simp [alist_set, alist_lookup, hk]
    · simp only [alist_set, if_neg ha, alist_lookup]
      rw [ih]

theorem alist_set_of_lookup_none (l : List (α × β)) (k : α) (v : β)
    (h : alist_lookup l k = none) : alist_set l k v = l ++ [(k, v)] := by
  induction l with
  | nil => simp [alist_set]
  | cons hd tl ih =>
    obtain ⟨a, b⟩ := hd
    by_cases ha : a = k
    · simp [alist_lookup, ha] at h
    · simp [alist_lookup, ha] at h
      simp [alist_set, ha, ih h]

theorem alist_lookup_none_iff (l : List (α × β)) (k : α) :
    alist_lookup l k = none ↔ k ∉ l.map Prod.fst := by
  induction l with
  | nil => simp [alist_lookup]
  | cons hd tl ih =>
    obtain ⟨a, b⟩ := hd
    by_cases ha : a = k
    · simp [alist_lookup, ha]
    · simp [alist_lookup, ha, ih, Ne.symm ha]

theorem alist_lookup_mem (l : List (α × β)) (k : α) (v : β)
    (h : alist_lookup l k = some v) : (k, v) ∈ l := by
  induction l with
  | nil => simp [alist_lookup] at h
  | cons hd tl ih =>
    obtain ⟨a, b⟩ := hd
    by_cases ha : a = k
    · simp [alist_lookup, ha] at h
      simp [ha, h]
    · simp [alist_lookup, ha] at h
      exact List.mem_cons_of_mem _ (ih h)

theorem alist_mem_set (l : List (α × β)) (k : α) (v : β) (p : α × β)
    (h : p ∈ alist_set l k v) : p = (k, v) ∨ p ∈ l := by
  induction l with
  | nil => simp [alist_set] at h; simp [h]
  | cons hd tl ih =>
    obtain ⟨a, b⟩ := hd
    by_cases ha : a = k
    · simp [alist_set, ha] at h
      rcases h with h | h
      · exact Or.inl h
      · exact Or.inr (List.mem_cons_of_mem _ h)
    · simp [alist_set, ha] at h
      rcases h with h | h
      · exact Or.inr (by simp [h])
      · rcases ih h with h' | h'
        · exact Or.inl h'
        · exact Or.inr (List.mem_cons_of_mem _ h')

theorem alist_keys_set_of_lookup_some (l : List (α × β)) (k : α) (v v0 : β)
    (h : alist_lookup l k = some v0) :
    (alist_set l k v).map Prod.fst = l.map Prod.fst := by
  induction l with
  | nil => simp [alist_lookup] at h
  | cons hd tl ih =>
    obtain ⟨a, b⟩ := hd
    by_cases ha : a = k
    · simp [alist_set, ha]
    · simp [alist_lookup, ha] at h
      simp [alist_set, ha, ih h]

theorem alist_mem_erase (l : List (α × β)) (k : α) (p : α × β)
    (h : p ∈ alist_erase l k) : p ∈ l := by
  induction l with
  | nil => simp [alist_erase] at h
  | cons hd tl ih =>
    obtain ⟨a, b⟩ := hd
    by_cases ha : a = k
    · simp [alist_erase, ha] at h
      exact List.mem_cons_of_mem _ h
    · simp [alist_erase, ha] at h
      rcases h with h | h
      · simp [h]
      · exact List.mem_cons_of_mem _ (ih h)

theorem alist_keys_erase_sublist (l : List (α × β)) (k : α) :
    ((alist_erase l k).map Prod.fst).Sublist (l.map Prod.fst) := by
  induction l with
  | nil => simp [alist_erase]
  | cons hd tl ih =>
    obtain ⟨a, b⟩ := hd
    by_cases ha : a = k
    · simp only [alist_erase, if_pos ha, List.map_cons]
      exact List.sublist_cons_of_sublist _ (List.Sublist.refl _)
    · simp only [alist_erase, if_neg ha, List.map_cons]
      exact List.Sublist.cons₂ _ ih

theorem alist_lookup_erase_ne (l : List (α × β)) (k k' : α) (h : k' ≠ k) :
    alist_lookup (alist_erase l k) k' = alist_lookup l k' := by
  have hk : ¬ k = k' := fun h' => h h'.symm
  induction l with
  | nil => simp [alist_erase]
  | cons hd tl ih =>
    obtain ⟨a, b⟩ := hd
    by_cases ha : a = k
    · subst ha
      simp [alist_erase, alist_lookup, hk]
    · simp only [alist_erase, if_neg ha, alist_lookup]
      rw [ih]

theorem alist_lookup_of_mem_nodup (l : List (α × β)) (k : α) (v : β)
    (hnd : (l.map Prod.fst).Nodup) (h : (k, v) ∈ l) : alist_lookup l k = some v := by
  induction l with
  | nil => simp at h
  | cons hd tl ih =>
    obtain ⟨a, b⟩ := hd
    rw [List.map_cons, List.nodup_cons] at hnd
    rcases List.mem_cons.mp h with h' | h'
    · rw [Prod.ext_iff] at h'
      obtain ⟨h1, h2⟩ := h'
      subst h1
      subst h2
      simp [alist_lookup]
    · have hkmem : k ∈ tl.map Prod.fst := List.mem_map.mpr ⟨(k, v), h', rfl⟩
      have ha : ¬ a = k := fun hak => hnd.1 (hak ▸ hkmem)
      simp only [alist_lookup, if_neg ha]
      exact ih hnd.2 h'

end AssocList

/-! ## Data model (`main.py` globals and Pydantic models) -/

/-- A `users_db` entry: `{password_hash, role, user_id}`. -/
structure Identity where
  password_hash : String
  role : String
  user_id : Nat
deriving DecidableEq, Repr

/-- A `posts_db` entry: `{title, content, author_id, created_at}`. -/
structure Post where
  title : String
  content : String
  author_id : Nat
  created_at : Nat
deriving DecidableEq, Repr

/-- A `login_attempts` entry: `{attempts, last_attempt_time}`. -/
structure AttemptState where
  attempts : Nat
  last_attempt_time : Nat
deriving DecidableEq, Repr

/-- The `User` response model: the per-request principal derived from a token. -/
structure User where
  user_id : Nat
  username : String
  role : String
deriving DecidableEq, Repr

/-- The module-level mutable state of `main.py`: the three dictionaries and the
two monotonic counters. -/
structure ServerState where
  users_db : List (String × Identity)
  posts_db : List (Nat × Post)
  login_attempts : List (String × AttemptState)
  user_counter : Nat
  post_counter : Nat
deriving DecidableEq, Repr

/-- The error taxonomy of the spec; each constructor corresponds to one
`HTTPException` raised in `main.py`. -/
inductive ApiError where
  | invalidRole
  | duplicateIdentity
  | invalidCredentials
  | rateLimited
  | unauthenticated
  | forbidden
  | notFound
deriving DecidableEq, Repr

/-! ## Security configuration and external primitives -/

def SECRET_KEY : String := "your-secret-key-change-this-in-production"

def ACCESS_TOKEN_EXPIRE_MINUTES : Nat := 15

/-- Modelled external primitive: `pwd_context.hash` (bcrypt via passlib).  The
library's salted hash is modelled as a deterministic tagged encoding; the only
property the application relies on is that `verify_password p (hash_password p)`
holds and that hashes are opaque strings. -/
def hash_password (password : String) : String := "bcrypt$" ++ password

/-- Modelled external primitive: `pwd_context.verify`. -/
def verify_password (plain_password : String) (hashed_password : String) : Bool :=
  hashed_password == hash_password plain_password

/-- The decoded claim set of a JWT: `{"sub": ..., "exp": ...}`. -/
structure TokenPayload where
  sub : Option String
  exp : Nat
deriving DecidableEq, Repr

/-- Modelled external primitive: a JWT produced by `jose.jwt.encode` is its
payload together with the signing key; `malformed` stands for any string that
is not a well-formed signed token. -/
inductive Token where
  | signed (payload : TokenPayload) (key : String)
  | malformed (raw : String)
deriving DecidableEq, Repr

/-- Modelled external primitive: `jose.jwt.decode token key` at time `now`.
Returns `none` (a `JWTError`) on a malformed token, a signature made with a
different key, or an expired `exp` claim (jose rejects exactly when
`exp < now`). -/
def jwt_decode (token : Token) (key : String) (now : Nat) : Option TokenPayload :=
  match token with
  | .malformed _ => none
  | .signed payload k =>
    if k = key then
      if payload.exp < now then none else some payload
    else none

/-! ## Utility functions of `main.py` -/

/-- `create_access_token(data={"sub": username})` at time `now`:
`exp = now + 15 minutes`, signed with `SECRET_KEY`. -/
def create_access_token (sub : String) (now : Nat) : Token :=
  Token.signed { sub := some sub, exp := now + ACCESS_TOKEN_EXPIRE_MINUTES * 60 } SECRET_KEY

/-- `check_rate_limit(username)` at time `current_time`.  Returns the boolean
result together with the updated `login_attempts` dictionary (the Python
function mutates the module-level dictionary in its first two branches). -/
def check_rate_limit (username : String) (current_time : Nat)
    (login_attempts : List (String × AttemptState)) :
    Bool × List (String × AttemptState) :=
  match alist_lookup login_attempts username with
  | none =>
    (true, alist_set login_attempts username
      { attempts := 0, last_attempt_time := current_time })
  | some user_attempts =>
    if current_time - user_attempts.last_attempt_time > 60 then
      (true, alist_set login_attempts username
        { attempts := 0, last_attempt_time := current_time })
    else if user_attempts.attempts < 5 then
      (true, login_attempts)
    else
      (false, login_attempts)

/-- `increment_login_attempts(username)` at time `current_time`. -/
def increment_login_attempts (username : String) (current_time : Nat)
    (login_attempts : List (String × AttemptState)) :
    List (String × AttemptState) :=
  match alist_lookup login_attempts username with
  | none =>
    alist_set login_attempts username { attempts := 1, last_attempt_time := current_time }
  | some ua =>
    alist_set login_attempts username
      { attempts := ua.attempts + 1, last_attempt_time := current_time }

/-- `get_current_user`: decode the bearer token, check the `sub` claim, and
resolve it against `users_db`; every failure is a 401 (`Unauthenticated`). -/
def get_current_user (token : Token) (now : Nat) (s : ServerState) :
    Except ApiError User :=
  match jwt_decode token SECRET_KEY now with
  | none => .error .unauthenticated
  | some payload =>
    match payload.sub with
    | none => .error .unauthenticated
    | some username =>
      match alist_lookup s.users_db username with
      | none => .error .unauthenticated
      | some u => .ok { user_id := u.user_id, username := username, role := u.role }

/-- `require_author_role`: 403 (`Forbidden`) unless the principal's role is
`"author"`. -/
def require_author_role (current_user : User) : Except ApiError User :=
  if current_user.role = "author" then .ok current_user else .error .forbidden

/-! ## Endpoint handlers -/

/-- `POST /register`.  Role validity is checked first, then username
uniqueness; on success the Identity is stored under the fresh `user_counter`
and only a human-readable message is returned. -/
def register_user (username password role : String) (s : ServerState) :
    Except ApiError String × ServerState :=
  if role = "reader" ∨ role = "author" then
    if (alist_lookup s.users_db username).isSome then
      (.error .duplicateIdentity, s)
    else
      (.ok ("User " ++ username ++ " registered successfully as " ++ role),
       { s with
          users_db := alist_set s.users_db username
            { password_hash := hash_password password
              role := role
              user_id := s.user_counter }
          user_counter := s.user_counter + 1 })
  else
    (.error .invalidRole, s)

/-- `POST /login` at time `now`: rate-limit gate, unconditional attempt
increment, then username lookup and password verification. -/
def login_user (username password : String) (now : Nat) (s : ServerState) :
    Except ApiError Token × ServerState :=
  let rl := check_rate_limit username now s.login_attempts
  if rl.1 = false then
    (.error .rateLimited, { s with login_attempts := rl.2 })
  else
    let s2 : ServerState := { s with login_attempts := increment_login_attempts username now rl.2 }
    match alist_lookup s.users_db username with
    | none => (.error .invalidCredentials, s2)
    | some stored_user =>
      if verify_password password stored_user.password_hash then
        (.ok (create_access_token username now), s2)
      else
        (.error .invalidCredentials, s2)

/-- The body of `POST /posts` (after `require_author_role`): allocate the next
`post_counter`, store the post, return `(post_id, title)`. -/
def create_post (title content : String) (current_user : User) (now : Nat)
    (s : ServerState) : Except ApiError (Nat × String) × ServerState :=
  (.ok (s.post_counter, title),
   { s with
      posts_db := alist_set s.posts_db s.post_counter
        { title := title
          content := content
          author_id := current_user.user_id
          created_at := now }
      post_counter := s.post_counter + 1 })

/-- The body of `PUT /posts/{post_id}` (after `require_author_role`):
existence check, then ownership check, then partial update of the fields
present in the request. -/
def update_post (post_id : Nat) (title? content? : Option String)
    (current_user : User) (s : ServerState) : Except ApiError Nat × ServerState :=
  match alist_lookup s.posts_db post_id with
  | none => (.error .notFound, s)
  | some p =>
    if p.author_id ≠ current_user.user_id then
      (.error .forbidden, s)
    else
      let p1 := match title? with
        | some t => { p with title := t }
        | none => p
      let p2 := match content? with
        | some c => { p1 with content := c }
        | none => p1
      (.ok post_id, { s with posts_db := alist_set s.posts_db post_id p2 })

/-- The body of `DELETE /posts/{post_id}` (after `require_author_role`):
existence check, ownership check, then `posts_db.pop(post_id)`, returning the
deleted title. -/
def delete_post (post_id : Nat) (current_user : User) (s : ServerState) :
    Except ApiError String × ServerState :=
  match alist_lookup s.posts_db post_id with
  | none => (.error .notFound, s)
  | some p =>
    if p.author_id ≠ current_user.user_id then
      (.error .forbidden, s)
    else
      (.ok p.title, { s with posts_db := alist_erase s.posts_db post_id })

/-- `POST /posts` including its dependency chain
`get_current_user → require_author_role`. -/
def create_post_handler (token : Token) (title content : String) (now : Nat)
    (s : ServerState) : Except ApiError (Nat × String) × ServerState :=
  match get_current_user token now s with
  | .error e => (.error e, s)
  | .ok cu =>
    match require_author_role cu with
    | .error e => (.error e, s)
    | .ok cu2 => create_post title content cu2 now s

/-- `PUT /posts/{post_id}` including its dependency chain. -/
def update_post_handler (token : Token) (post_id : Nat)
    (title? content? : Option String) (now : Nat) (s : ServerState) :
    Except ApiError Nat × ServerState :=
  match get_current_user token now s with
  | .error e => (.error e, s)
  | .ok cu =>
    match require_author_role cu with
    | .error e => (.error e, s)
    | .ok cu2 => update_post post_id title? content? cu2 s

/-- `DELETE /posts/{post_id}` including its dependency chain. -/
def delete_post_handler (token : Token) (post_id : Nat) (now : Nat)
    (s : ServerState) : Except ApiError String × ServerState :=
  match get_current_user token now s with
  | .error e => (.error e, s)
  | .ok cu =>
    match require_author_role cu with
    | .error e => (.error e, s)
    | .ok cu2 => delete_post post_id cu2 s

/-! ## Mutating operations and reachable states -/

/-- One mutating request: the five state-changing endpoints of `main.py`
(`GET /posts` and `GET /me` never mutate). -/
inductive Op where
  | register (username password role : String)
  | login (username password : String) (now : Nat)
  | createPost (token : Token) (title content : String) (now : Nat)
  | updatePost (token : Token) (post_id : Nat) (title? content? : Option String) (now : Nat)
  | deletePost (token : Token) (post_id : Nat) (now : Nat)

/-- The state transition of one request (the response is discarded). -/
def step (op : Op) (s : ServerState) : ServerState :=
  match op with
  | .register u p r => (register_user u p r s).2
  | .login u p t => (login_user u p t s).2
  | .createPost tok t c now => (create_post_handler tok t c now s).2
  | .updatePost tok pid t? c? now => (update_post_handler tok pid t? c? now s).2
  | .deletePost tok pid now => (delete_post_handler tok pid now s).2

/-- Run a sequence of requests. -/
def run (ops : List Op) (s : ServerState) : ServerState :=
  ops.foldl (fun s' op => step op s') s

/-- The module-level initial state: empty dictionaries, both counters at 1. -/
def initState : ServerState :=
  { users_db := [], posts_db := [], login_attempts := [], user_counter := 1, post_counter := 1 }

/-! ## Association-list double update -/

theorem alist_set_set {α β : Type} [DecidableEq α] (l : List (α × β)) (k : α) (v w : β) :
    alist_set (alist_set l k v) k w = alist_set l k w := by
  induction l with
  | nil => simp [alist_set]
  | cons hd tl ih =>
    obtain ⟨a, b⟩ := hd
    by_cases ha : a = k
    · simp [alist_set, ha]
    · simp [alist_set, ha, ih]

/-! ## Rate-limiter branch lemmas -/

theorem check_rate_limit_of_none (u : String) (t : Nat)
    (la : List (String × AttemptState)) (h : alist_lookup la u = none) :
    check_rate_limit u t la =
      (true, alist_set la u { attempts := 0, last_attempt_time := t }) := by
  simp [check_rate_limit, h]

theorem check_rate_limit_reset (u : String) (t : Nat)
    (la : List (String × AttemptState)) (a : AttemptState)
    (h : alist_lookup la u = some a) (ht : a.last_attempt_time + 60 < t) :
    check_rate_limit u t la =
      (true, alist_set la u { attempts := 0, last_attempt_time := t }) := by
  have h60 : t - a.last_attempt_time > 60 := by omega
  simp [check_rate_limit, h, h60]

theorem check_rate_limit_under (u : String) (t : Nat)
    (la : List (String × AttemptState)) (a : AttemptState)
    (h : alist_lookup la u = some a) (ht : t ≤ a.last_attempt_time + 60)
    (hc : a.attempts < 5) :
    check_rate_limit u t la = (true, la) := by
  have h60 : ¬ t - a.last_attempt_time > 60 := by omega
  simp [check_rate_limit, h, h60, hc]

theorem check_rate_limit_over (u : String) (t : Nat)
    (la : List (String × AttemptState)) (a : AttemptState)
    (h : alist_lookup la u = some a) (ht : t ≤ a.last_attempt_time + 60)
    (hc : 5 ≤ a.attempts) :
    check_rate_limit u t la = (false, la) := by
  have h60 : ¬ t - a.last_attempt_time > 60 := by omega
  have hc' : ¬ a.attempts < 5 := by omega
  simp [check_rate_limit, h, h60, hc']

/-! ## Login branch lemmas -/

theorem login_user_rateLimited (u p : String) (t : Nat) (s : ServerState)
    (a : AttemptState) (h : alist_lookup s.login_attempts u = some a)
    (ht : t ≤ a.last_attempt_time + 60) (hc : 5 ≤ a.attempts) :
    login_user u p t s = (.error .rateLimited, s) := by
  have hrl := check_rate_limit_over u t s.login_attempts a h ht hc
  simp [login_user, hrl]

theorem login_user_admitted_shape (u p : String) (t : Nat) (s : ServerState)
    (la' : List (String × AttemptState))
    (hrl : check_rate_limit u t s.login_attempts = (true, la')) :
    (login_user u p t s).1 ≠ .error .rateLimited ∧
    (login_user u p t s).2 =
      { s with login_attempts := increment_login_attempts u t la' } := by
  cases hu : alist_lookup s.users_db u with
  | none => simp [login_user, hrl, hu]
  | some stored =>
    by_cases hv : verify_password p stored.password_hash <;>
      simp [login_user, hrl, hu, hv]

theorem login_progress_first (u p : String) (t : Nat) (s : ServerState)
    (h : alist_lookup s.login_attempts u = none) :
    (check_rate_limit u t s.login_attempts).1 = true ∧
    (login_user u p t s).1 ≠ .error .rateLimited ∧
    (login_user u p t s).2 =
      { s with login_attempts :=
          alist_set s.login_attempts u { attempts := 1, last_attempt_time := t } } := by
  have hrl := check_rate_limit_of_none u t s.login_attempts h
  have hsh := login_user_admitted_shape u p t s _ hrl
  refine ⟨by simp [hrl], hsh.1, ?_⟩
  rw [hsh.2]
  have hl : alist_lookup
      (alist_set s.login_attempts u { attempts := 0, last_attempt_time := t }) u =
      some { attempts := 0, last_attempt_time := t } :=
    alist_lookup_set_self _ _ _
  simp [increment_login_attempts, hl, alist_set_set]

theorem login_progress_next (u p : String) (t : Nat) (s : ServerState) (a : AttemptState)
    (h : alist_lookup s.login_attempts u = some a)
    (ht : t ≤ a.last_attempt_time + 60) (hc : a.attempts < 5) :
    (check_rate_limit u t s.login_attempts).1 = true ∧
    (login_user u p t s).1 ≠ .error .rateLimited ∧
    (login_user u p t s).2 =
      { s with login_attempts :=
          alist_set s.login_attempts u { attempts := a.attempts + 1, last_attempt_time := t } } := by
  have hrl := check_rate_limit_under u t s.login_attempts a h ht hc
  have hsh := login_user_admitted_shape u p t s _ hrl
  refine ⟨by simp [hrl], hsh.1, ?_⟩
  rw [hsh.2]
  simp [increment_login_attempts, h]

theorem login_progress_reset (u p : String) (t : Nat) (s : ServerState) (a : AttemptState)
    (h : alist_lookup s.login_attempts u = some a)
    (ht : a.last_attempt_time + 60 < t) :
    (check_rate_limit u t s.login_attempts).1 = true ∧
    (login_user u p t s).1 ≠ .error .rateLimited ∧
    (login_user u p t s).2 =
      { s with login_attempts :=
          alist_set s.login_attempts u { attempts := 1, last_attempt_time := t } } := by
  have hrl := check_rate_limit_reset u t s.login_attempts a h ht
  have hsh := login_user_admitted_shape u p t s _ hrl
  refine ⟨by simp [hrl], hsh.1, ?_⟩
  rw [hsh.2]
  have hl : alist_lookup
      (alist_set s.login_attempts u { attempts := 0, last_attempt_time := t }) u =
      some { attempts := 0, last_attempt_time := t } :=
    alist_lookup_set_self _ _ _
  simp [increment_login_attempts, hl, alist_set_set]

theorem login_user_frame (u p : String) (t : Nat) (s : ServerState) :
    (login_user u p t s).2.users_db = s.users_db ∧
    (login_user u p t s).2.posts_db = s.posts_db ∧
    (login_user u p t s).2.user_counter = s.user_counter ∧
    (login_user u p t s).2.post_counter = s.post_counter := by
  by_cases hrl : (check_rate_limit u t s.login_attempts).1 = false
  · simp [login_user, hrl]
  · have hrl' : check_rate_limit u t s.login_attempts =
        (true, (check_rate_limit u t s.login_attempts).2) := by
      rcases hb : (check_rate_limit u t s.login_attempts).1 with _ | _
      · exact absurd hb hrl
      · exact Prod.ext hb rfl
    have hsh := login_user_admitted_shape u p t s _ hrl'
    rw [hsh.2]
    exact ⟨rfl, rfl, rfl, rfl⟩

theorem login_user_ok_token (u p : String) (t : Nat) (s : ServerState) (tok : Token)
    (h : (login_user u p t s).1 = .ok tok) :
    tok = create_access_token u t := by
  by_cases hrl : (check_rate_limit u t s.login_attempts).1 = false
  · simp [login_user, hrl] at h
  · cases hu : alist_lookup s.users_db u with
    | none => simp [login_user, hrl, hu] at h
    | some stored =>
      by_cases hv : verify_password p stored.password_hash
      · simp [login_user, hrl, hu, hv] at h
        exact h.symm
      · simp [login_user, hrl, hu, hv] at h

theorem get_current_user_ok (tok : Token) (now : Nat) (s : ServerState) (cu : User)
    (h : get_current_user tok now s = .ok cu) :
    ∃ ident, alist_lookup s.users_db cu.username = some ident ∧
      ident.user_id = cu.user_id ∧ ident.role = cu.role := by
  cases hd : jwt_decode tok SECRET_KEY now with
  | none => simp [get_current_user, hd] at h
  | some payload =>
    cases hs : payload.sub with
    | none => simp [get_current_user, hd, hs] at h
    | some username =>
      cases hu : alist_lookup s.users_db username with
      | none => simp [get_current_user, hd, hs, hu] at h
      | some ident =>
        simp only [get_current_user, hd, hs, hu, Except.ok.injEq] at h
        subst h
        exact ⟨ident, hu, rfl, rfl⟩

theorem get_current_user_of_issued_token (u : String) (tl now : Nat) (s : ServerState)
    (ident : Identity) (h : alist_lookup s.users_db u = some ident) :
    (now ≤ tl + ACCESS_TOKEN_EXPIRE_MINUTES * 60 →
      get_current_user (create_access_token u tl) now s =
        .ok { user_id := ident.user_id, username := u, role := ident.role }) ∧
    (tl + ACCESS_TOKEN_EXPIRE_MINUTES * 60 < now →
      get_current_user (create_access_token u tl) now s = .error .unauthenticated) := by
  constructor
  · intro hlt
    have hexp : ¬ (tl + ACCESS_TOKEN_EXPIRE_MINUTES * 60 < now) := by omega
    simp [get_current_user, create_access_token, jwt_decode, hexp, h]
  · intro hgt
    simp [get_current_user, create_access_token, jwt_decode, hgt]

/-! ## Register branch lemmas -/

theorem register_user_invalidRole (u p r : String) (s : ServerState)
    (h : ¬ (r = "reader" ∨ r = "author")) :
    register_user u p r s = (.error .invalidRole, s) := by
  simp [register_user, h]

theorem register_user_duplicate (u p r : String) (s : ServerState)
    (hr : r = "reader" ∨ r = "author") (i : Identity)
    (h : alist_lookup s.users_db u = some i) :
    register_user u p r s = (.error .duplicateIdentity, s) := by
  rcases hr with rfl | rfl <;> simp [register_user, h]

theorem register_user_success (u p r : String) (s : ServerState)
    (hr : r = "reader" ∨ r = "author") (h : alist_lookup s.users_db u = none) :
    register_user u p r s =
      (.ok ("User " ++ u ++ " registered successfully as " ++ r),
       { s with
          users_db := alist_set s.users_db u
            { password_hash := hash_password p, role := r, user_id := s.user_counter }
          user_counter := s.user_counter + 1 }) := by
  rcases hr with rfl | rfl <;> simp [register_user, h]

/-! ## The reachable-state invariant -/

/-- The invariant of §3 of the spec: unique usernames, user ids bounded by and
unique below `user_counter`, unique post ids bounded by `post_counter` (so ids
are never reused), and every post owned by a registered author. -/
def StateInv (s : ServerState) : Prop :=
  (s.users_db.map Prod.fst).Nodup ∧
  (∀ e ∈ s.users_db, e.2.user_id < s.user_counter) ∧
  (s.users_db.map (fun e => e.2.user_id)).Nodup ∧
  (s.posts_db.map Prod.fst).Nodup ∧
  (∀ e ∈ s.posts_db, e.1 < s.post_counter) ∧
  (∀ e ∈ s.posts_db, ∃ uname ident,
      alist_lookup s.users_db uname = some ident ∧
      ident.user_id = e.2.author_id ∧ ident.role = "author")

theorem stateInv_frame (s s' : ServerState)
    (hu : s'.users_db = s.users_db) (hp : s'.posts_db = s.posts_db)
    (huc : s'.user_counter = s.user_counter) (hpc : s'.post_counter = s.post_counter)
    (h : StateInv s) : StateInv s' := by
  unfold StateInv
  rw [hu, hp, huc, hpc]
  exact h

theorem register_preserves_inv (u p r : String) (s : ServerState) (h : StateInv s) :
    StateInv (register_user u p r s).2 := by
  by_cases hr : r = "reader" ∨ r = "author"
  · cases hu : alist_lookup s.users_db u with
    | some i => rw [register_user_duplicate u p r s hr i hu]; exact h
    | none =>
      rw [register_user_success u p r s hr hu]
      obtain ⟨h1, h2, h3, h4, h5, h6⟩ := h
      have hkeys : u ∉ s.users_db.map Prod.fst := (alist_lookup_none_iff _ _).mp hu
      have happ := alist_set_of_lookup_none s.users_db u
        { password_hash := hash_password p, role := r, user_id := s.user_counter } hu
      refine ⟨?_, ?_, ?_, h4, h5, ?_⟩
      · rw [happ, List.map_append, List.nodup_append]
        exact ⟨h1, List.nodup_singleton _, by
          intro x hx hx'
          simp at hx'
          exact hkeys (hx' ▸ hx)⟩
      · intro e he
        rcases alist_mem_set _ _ _ _ he with rfl | he'
        · simp
        · exact Nat.lt_trans (h2 e he') (Nat.lt_succ_self _)
      · rw [happ, List.map_append, List.nodup_append]
        refine ⟨h3, List.nodup_singleton _, ?_⟩
        intro x hx hx'
        simp at hx'
        obtain ⟨e, he, hex⟩ := List.mem_map.mp hx
        have := h2 e he
        omega
      · intro e he
        obtain ⟨un, ident, hlk, hids, hrl⟩ := h6 e he
        have hne : un ≠ u := by
          intro heq
          rw [heq, hu] at hlk
          cases hlk
        exact ⟨un, ident, by rw [alist_lookup_set_ne _ _ _ _ hne]; exact hlk, hids, hrl⟩
  · rw [register_user_invalidRole u p r s hr]
    exact h

theorem login_preserves_inv (u p : String) (t : Nat) (s : ServerState) (h : StateInv s) :
    StateInv (login_user u p t s).2 := by
  have hf := login_user_frame u p t s
  exact stateInv_frame s _ hf.1 hf.2.1 hf.2.2.1 hf.2.2.2 h

theorem posts_set_same_author_inv (s : ServerState) (pid : Nat) (p p2 : Post)
    (hp : alist_lookup s.posts_db pid = some p) (hauth : p2.author_id = p.author_id)
    (h : StateInv s) :
    StateInv { s with posts_db := alist_set s.posts_db pid p2 } := by
  obtain ⟨h1, h2, h3, h4, h5, h6⟩ := h
  refine ⟨h1, h2, h3, ?_, ?_, ?_⟩
  · rw [alist_keys_set_of_lookup_some s.posts_db pid p2 p hp]
    exact h4
  · intro e he
    rcases alist_mem_set _ _ _ _ he with rfl | he'
    · simpa using h5 (pid, p) (alist_lookup_mem _ _ _ hp)
    · exact h5 e he'
  · intro e he
    rcases alist_mem_set _ _ _ _ he with rfl | he'
    · obtain ⟨un, idn, hlk, hids, hrl⟩ := h6 (pid, p) (alist_lookup_mem _ _ _ hp)
      exact ⟨un, idn, hlk, by simpa [hauth] using hids, hrl⟩
    · exact h6 e he'

theorem create_post_preserves_inv (ti c : String) (cu : User) (now : Nat)
    (s : ServerState) (h : StateInv s) (ident : Identity)
    (hident : alist_lookup s.users_db cu.username = some ident)
    (hid : ident.user_id = cu.user_id) (hrole : ident.role = "author") :
    StateInv (create_post ti c cu now s).2 := by
  obtain ⟨h1, h2, h3, h4, h5, h6⟩ := h
  have hfresh : alist_lookup s.posts_db s.post_counter = none := by
    rw [alist_lookup_none_iff]
    intro hmem
    obtain ⟨e, he, hefst⟩ := List.mem_map.mp hmem
    have := h5 e he
    omega
  have happ := alist_set_of_lookup_none s.posts_db s.post_counter
    { title := ti, content := c, author_id := cu.user_id, created_at := now } hfresh
  refine ⟨h1, h2, h3, ?_, ?_, ?_⟩
  · show ((alist_set s.posts_db s.post_counter _).map Prod.fst).Nodup
    rw [happ, List.map_append, List.nodup_append]
    refine ⟨h4, List.nodup_singleton _, ?_⟩
    intro x hx hx'
    simp at hx'
    obtain ⟨e, he, hex⟩ := List.mem_map.mp hx
    have := h5 e he
    omega
  · intro e he
    rcases alist_mem_set _ _ _ _ he with rfl | he'
    · simp [create_post]
    · exact Nat.lt_trans (h5 e he') (Nat.lt_succ_self _)
  · intro e he
    rcases alist_mem_set _ _ _ _ he with rfl | he'
    · exact ⟨cu.username, ident, hident, by simpa using hid, hrole⟩
    · exact h6 e he'

theorem update_post_preserves_inv (pid : Nat) (t? c? : Option String) (cu : User)
    (s : ServerState) (h : StateInv s) : StateInv (update_post pid t? c? cu s).2 := by
  cases hp : alist_lookup s.posts_db pid with
  | none => simp only [update_post, hp]; exact h
  | some p =>
    by_cases hown : p.author_id = cu.user_id
    · have hown' : ¬ p.author_id ≠ cu.user_id := fun hne => hne hown
      simp only [update_post, hp, if_neg hown']
      exact posts_set_same_author_inv s pid p _ hp
        (by rcases t? with _ | t <;> rcases c? with _ | c <;> rfl) h
    · have hown' : p.author_id ≠ cu.user_id := hown
      simp only [update_post, hp, if_pos hown']
      exact h

theorem delete_post_preserves_inv (pid : Nat) (cu : User) (s : ServerState)
    (h : StateInv s) : StateInv (delete_post pid cu s).2 := by
  cases hp : alist_lookup s.posts_db pid with
  | none => simp only [delete_post, hp]; exact h
  | some p =>
    by_cases hown : p.author_id = cu.user_id
    · have hown' : ¬ p.author_id ≠ cu.user_id := fun hne => hne hown
      simp only [delete_post, hp, if_neg hown']
      obtain ⟨h1, h2, h3, h4, h5, h6⟩ := h
      refine ⟨h1, h2, h3, ?_, ?_, ?_⟩
      · exact List.Nodup.sublist (alist_keys_erase_sublist s.posts_db pid) h4
      · intro e he
        exact h5 e (alist_mem_erase _ _ _ he)
      · intro e he
        exact h6 e (alist_mem_erase _ _ _ he)
    · have hown' : p.author_id ≠ cu.user_id := hown
      simp only [delete_post, hp, if_pos hown']
      exact h

theorem create_post_handler_preserves_inv (tok : Token) (ti c : String) (now : Nat)
    (s : ServerState) (h : StateInv s) :
    StateInv (create_post_handler tok ti c now s).2 := by
  cases hcu : get_current_user tok now s with
  | error e =>
    simp only [create_post_handler, hcu]
    exact h
  | ok cu =>
    by_cases hrole : cu.role = "author"
    · have hra : require_author_role cu = .ok cu := by simp [require_author_role, hrole]
      obtain ⟨ident, hident, hid, hrl⟩ := get_current_user_ok tok now s cu hcu
      simp only [create_post_handler, hcu, hra]
      exact create_post_preserves_inv ti c cu now s h ident hident hid (hrl.trans hrole)
    · have hra : require_author_role cu = .error .forbidden := by
        simp [require_author_role, hrole]
      simp only [create_post_handler, hcu, hra]
      exact h

theorem update_post_handler_preserves_inv (tok : Token) (pid : Nat)
    (t? c? : Option String) (now : Nat) (s : ServerState) (h : StateInv s) :
    StateInv (update_post_handler tok pid t? c? now s).2 := by
  cases hcu : get_current_user tok now s with
  | error e =>
    simp only [update_post_handler, hcu]
    exact h
  | ok cu =>
    by_cases hrole : cu.role = "author"
    · have hra : require_author_role cu = .ok cu := by simp [require_author_role, hrole]
      simp only [update_post_handler, hcu, hra]
      exact update_post_preserves_inv pid t? c? cu s h
    · have hra : require_author_role cu = .error .forbidden := by
        simp [require_author_role, hrole]
      simp only [update_post_handler, hcu, hra]
      exact h

theorem delete_post_handler_preserves_inv (tok : Token) (pid : Nat) (now : Nat)
    (s : ServerState) (h : StateInv s) :
    StateInv (delete_post_handler tok pid now s).2 := by
  cases hcu : get_current_user tok now s with
  | error e =>
    simp only [delete_post_handler, hcu]
    exact h
  | ok cu =>
    by_cases hrole : cu.role = "author"
    · have hra : require_author_role cu = .ok cu := by simp [require_author_role, hrole]
      simp only [delete_post_handler, hcu, hra]
      exact delete_post_preserves_inv pid cu s h
    · have hra : require_author_role cu = .error .forbidden := by
        simp [require_author_role, hrole]
      simp only [delete_post_handler, hcu, hra]
      exact h

theorem step_preserves_inv (op : Op) (s : ServerState) (h : StateInv s) :
    StateInv (step op s) := by
  cases op with
  | register u p r => exact register_preserves_inv u p r s h
  | login u p t => exact login_preserves_inv u p t s h
  | createPost tok t c now => exact create_post_handler_preserves_inv tok t c now s h
  | updatePost tok pid t? c? now =>
    exact update_post_handler_preserves_inv tok pid t? c? now s h
  | deletePost tok pid now => exact delete_post_handler_preserves_inv tok pid now s h

theorem initState_inv : StateInv initState := by
  refine ⟨?_, ?_, ?_, ?_, ?_, ?_⟩ <;> simp [initState]

theorem run_preserves_inv (ops : List Op) (s : ServerState) (h : StateInv s) :
    StateInv (run ops s) := by
  induction ops generalizing s with
  | nil => exact h
  | cons op rest ih => exact ih (step op s) (step_preserves_inv op s h)

theorem alist_lookup_erase_self {α β : Type} [DecidableEq α] (l : List (α × β)) (k : α)
    (hnd : (l.map Prod.fst).Nodup) : alist_lookup (alist_erase l k) k = none := by
  induction l with
  | nil => simp [alist_erase, alist_lookup]
  | cons hd tl ih =>
    obtain ⟨a, b⟩ := hd
    rw [List.map_cons, List.nodup_cons] at hnd
    by_cases ha : a = k
    · subst ha
      simp only [alist_erase, if_pos rfl]
      rw [alist_lookup_none_iff]
      exact hnd.1
    · simp only [alist_erase, if_neg ha, alist_lookup, if_neg ha]
      exact ih hnd.2

/-! ## Frame lemmas for the post operations -/

theorem update_post_users_db (pid : Nat) (t? c? : Option String) (cu : User)
    (s : ServerState) : (update_post pid t? c? cu s).2.users_db = s.users_db := by
  cases hp : alist_lookup s.posts_db pid with
  | none => simp [update_post, hp]
  | some p =>
    by_cases hown : p.author_id ≠ cu.user_id
    · simp [update_post, hp, hown]
    · simp [update_post, hp, hown]

theorem delete_post_users_db (pid : Nat) (cu : User) (s : ServerState) :
    (delete_post pid cu s).2.users_db = s.users_db := by
  cases hp : alist_lookup s.posts_db pid with
  | none => simp [delete_post, hp]
  | some p =>
    by_cases hown : p.author_id ≠ cu.user_id
    · simp [delete_post, hp, hown]
    · simp [delete_post, hp, hown]

theorem create_post_handler_users_db (tok : Token) (ti c : String) (now : Nat)
    (s : ServerState) : (create_post_handler tok ti c now s).2.users_db = s.users_db := by
  cases hcu : get_current_user tok now s with
  | error e => simp [create_post_handler, hcu]
  | ok cu =>
    cases hra : require_author_role cu with
    | error e => simp [create_post_handler, hcu, hra]
    | ok cu2 => simp [create_post_handler, hcu, hra, create_post]

theorem update_post_handler_users_db (tok : Token) (pid : Nat)
    (t? c? : Option String) (now : Nat) (s : ServerState) :
    (update_post_handler tok pid t? c? now s).2.users_db = s.users_db := by
  cases hcu : get_current_user tok now s with
  | error e => simp [update_post_handler, hcu]
  | ok cu =>
    cases hra : require_author_role cu with
    | error e => simp [update_post_handler, hcu, hra]
    | ok cu2 =>
      simp only [update_post_handler, hcu, hra]
      exact update_post_users_db pid t? c? cu2 s

theorem delete_post_handler_users_db (tok : Token) (pid : Nat) (now : Nat)
    (s : ServerState) :
    (delete_post_handler tok pid now s).2.users_db = s.users_db := by
  cases hcu : get_current_user tok now s with
  | error e => simp [delete_post_handler, hcu]
  | ok cu =>
    cases hra : require_author_role cu with
    | error e => simp [delete_post_handler, hcu, hra]
    | ok cu2 =>
      simp only [delete_post_handler, hcu, hra]
      exact delete_post_users_db pid cu2 s

theorem register_user_posts_db (u p r : String) (s : ServerState) :
    (register_user u p r s).2.posts_db = s.posts_db := by
  by_cases hr : r = "reader" ∨ r = "author"
  · cases hu : alist_lookup s.users_db u with
    | some i => rw [register_user_duplicate u p r s hr i hu]
    | none => rw [register_user_success u p r s hr hu]
  · rw [register_user_invalidRole u p r s hr]

/-! ## Identity bindings survive every operation -/

theorem register_user_users_preserved (u0 p r : String) (s : ServerState) (u : String)
    (i : Identity) (h : alist_lookup s.users_db u = some i) :
    alist_lookup (register_user u0 p r s).2.users_db u = some i := by
  by_cases hr : r = "reader" ∨ r = "author"
  · cases hu : alist_lookup s.users_db u0 with
    | some j => rw [register_user_duplicate u0 p r s hr j hu]; exact h
    | none =>
      rw [register_user_success u0 p r s hr hu]
      have hne : u ≠ u0 := by
        intro heq
        rw [heq, hu] at h
        cases h
      show alist_lookup (alist_set s.users_db u0 _) u = some i
      rw [alist_lookup_set_ne _ _ _ _ hne]
      exact h
  · rw [register_user_invalidRole u0 p r s hr]; exact h

theorem step_users_preserved (op : Op) (s : ServerState) (u : String) (i : Identity)
    (h : alist_lookup s.users_db u = some i) :
    alist_lookup (step op s).users_db u = some i := by
  cases op with
  | register u0 p r => exact register_user_users_preserved u0 p r s u i h
  | login u0 p t =>
    show alist_lookup (login_user u0 p t s).2.users_db u = some i
    rw [(login_user_frame u0 p t s).1]
    exact h
  | createPost tok ti c now =>
    show alist_lookup (create_post_handler tok ti c now s).2.users_db u = some i
    rw [create_post_handler_users_db]
    exact h
  | updatePost tok pid t? c? now =>
    show alist_lookup (update_post_handler tok pid t? c? now s).2.users_db u = some i
    rw [update_post_handler_users_db]
    exact h
  | deletePost tok pid now =>
    show alist_lookup (delete_post_handler tok pid now s).2.users_db u = some i
    rw [delete_post_handler_users_db]
    exact h

/-! ## A post's author never changes -/

theorem update_post_author_preserved (pid0 : Nat) (t? c? : Option String) (cu : User)
    (s : ServerState) (pid : Nat) (post post' : Post)
    (h : alist_lookup s.posts_db pid = some post)
    (h' : alist_lookup (update_post pid0 t? c? cu s).2.posts_db pid = some post') :
    post'.author_id = post.author_id := by
  cases hp : alist_lookup s.posts_db pid0 with
  | none =>
    rw [show (update_post pid0 t? c? cu s).2 = s by simp [update_post, hp]] at h'
    rw [h] at h'
    cases h'
    rfl
  | some p =>
    by_cases hown : p.author_id ≠ cu.user_id
    · rw [show (update_post pid0 t? c? cu s).2 = s by simp [update_post, hp, hown]] at h'
      rw [h] at h'
      cases h'
      rfl
    · have hex : ∃ p2 : Post,
          (update_post pid0 t? c? cu s).2.posts_db = alist_set s.posts_db pid0 p2 ∧
          p2.author_id = p.author_id := by
        rcases t? with _ | t <;> rcases c? with _ | c
        · exact ⟨p, by simp [update_post, hp, hown], rfl⟩
        · exact ⟨{ p with content := c }, by simp [update_post, hp, hown], rfl⟩
        · exact ⟨{ p with title := t }, by simp [update_post, hp, hown], rfl⟩
        · exact ⟨{ p with title := t, content := c }, by simp [update_post, hp, hown], rfl⟩
      obtain ⟨p2, hshape, hp2auth⟩ := hex
      by_cases hpid : pid = pid0
      · subst hpid
        rw [hp] at h
        cases h
        rw [hshape, alist_lookup_set_self] at h'
        cases h'
        exact hp2auth
      · rw [hshape, alist_lookup_set_ne _ _ _ _ hpid] at h'
        rw [h] at h'
        cases h'
        rfl

theorem delete_post_author_preserved (pid0 : Nat) (cu : User) (s : ServerState)
    (hnd : (s.posts_db.map Prod.fst).Nodup) (pid : Nat) (post post' : Post)
    (h : alist_lookup s.posts_db pid = some post)
    (h' : alist_lookup (delete_post pid0 cu s).2.posts_db pid = some post') :
    post'.author_id = post.author_id := by
  cases hp : alist_lookup s.posts_db pid0 with
  | none =>
    rw [show (delete_post pid0 cu s).2 = s by simp [delete_post, hp]] at h'
    rw [h] at h'
    cases h'
    rfl
  | some p =>
    by_cases hown : p.author_id ≠ cu.user_id
    · rw [show (delete_post pid0 cu s).2 = s by simp [delete_post, hp, hown]] at h'
      rw [h] at h'
      cases h'
      rfl
    · have hshape : (delete_post pid0 cu s).2.posts_db = alist_erase s.posts_db pid0 := by
        simp [delete_post, hp, hown]
      by_cases hpid : pid = pid0
      · subst hpid
        rw [hshape, alist_lookup_erase_self _ _ hnd] at h'
        cases h'
      · rw [hshape, alist_lookup_erase_ne _ _ _ hpid] at h'
        rw [h] at h'
        cases h'
        rfl

theorem create_post_author_preserved (ti c : String) (cu : User) (now : Nat)
    (s : ServerState) (hbound : ∀ e ∈ s.posts_db, e.1 < s.post_counter)
    (pid : Nat) (post post' : Post)
    (h : alist_lookup s.posts_db pid = some post)
    (h' : alist_lookup (create_post ti c cu now s).2.posts_db pid = some post') :
    post'.author_id = post.author_id := by
  have hne : pid ≠ s.post_counter := by
    have := hbound (pid, post) (alist_lookup_mem _ _ _ h)
    intro heq
    rw [heq] at this
    omega
  have hshape : (create_post ti c cu now s).2.posts_db =
      alist_set s.posts_db s.post_counter
        { title := ti, content := c, author_id := cu.user_id, created_at := now } := by
    simp [create_post]
  rw [hshape, alist_lookup_set_ne _ _ _ _ hne] at h'
  rw [h] at h'
  cases h'
  rfl

theorem step_post_author_preserved (op : Op) (s : ServerState) (hinv : StateInv s)
    (pid : Nat) (post post' : Post)
    (h : alist_lookup s.posts_db pid = some post)
    (h' : alist_lookup (step op s).posts_db pid = some post') :
    post'.author_id = post.author_id := by
  cases op with
  | register u0 p r =>
    rw [show (step (Op.register u0 p r) s).posts_db = s.posts_db from
      register_user_posts_db u0 p r s] at h'
    rw [h] at h'
    cases h'
    rfl
  | login u0 p t =>
    rw [show (step (Op.login u0 p t) s).posts_db = s.posts_db from
      (login_user_frame u0 p t s).2.1] at h'
    rw [h] at h'
    cases h'
    rfl
  | createPost tok ti c now =>
    show post'.author_id = post.author_id
    rcases hcu : get_current_user tok now s with e | cu
    · rw [show (step (Op.createPost tok ti c now) s) = s by
        simp [step, create_post_handler, hcu]] at h'
      rw [h] at h'
      cases h'
      rfl
    · rcases hra : require_author_role cu with e | cu2
      · rw [show (step (Op.createPost tok ti c now) s) = s by
          simp [step, create_post_handler, hcu, hra]] at h'
        rw [h] at h'
        cases h'
        rfl
      · rw [show (step (Op.createPost tok ti c now) s) = (create_post ti c cu2 now s).2 by
          simp [step, create_post_handler, hcu, hra]] at h'
        exact create_post_author_preserved ti c cu2 now s hinv.2.2.2.2.1 pid post post' h h'
  | updatePost tok pid0 t? c? now =>
    rcases hcu : get_current_user tok now s with e | cu
    · rw [show (step (Op.updatePost tok pid0 t? c? now) s) = s by
        simp [step, update_post_handler, hcu]] at h'
      rw [h] at h'
      cases h'
      rfl
    · rcases hra : require_author_role cu with e | cu2
      · rw [show (step (Op.updatePost tok pid0 t? c? now) s) = s by
          simp [step, update_post_handler, hcu, hra]] at h'
        rw [h] at h'
        cases h'
        rfl
      · rw [show (step (Op.updatePost tok pid0 t? c? now) s) =
            (update_post pid0 t? c? cu2 s).2 by
          simp [step, update_post_handler, hcu, hra]] at h'
        exact update_post_author_preserved pid0 t? c? cu2 s pid post post' h h'
  | deletePost tok pid0 now =>
    rcases hcu : get_current_user tok now s with e | cu
    · rw [show (step (Op.deletePost tok pid0 now) s) = s by
        simp [step, delete_post_handler, hcu]] at h'
      rw [h] at h'
      cases h'
      rfl
    · rcases hra : require_author_role cu with e | cu2
      · rw [show (step (Op.deletePost tok pid0 now) s) = s by
          simp [step, delete_post_handler, hcu, hra]] at h'
        rw [h] at h'
        cases h'
        rfl
      · rw [show (step (Op.deletePost tok pid0 now) s) = (delete_post pid0 cu2 s).2 by
          simp [step, delete_post_handler, hcu, hra]] at h'
        exact delete_post_author_preserved pid0 cu2 s hinv.2.2.2.1 pid post post' h h'

theorem login_user_unknown_user (u p : String) (t : Nat) (s : ServerState)
    (la' : List (String × AttemptState))
    (hrl : check_rate_limit u t s.login_attempts = (true, la'))
    (hu : alist_lookup s.users_db u = none) :
    (login_user u p t s).1 = .error .invalidCredentials := by
  simp [login_user, hrl, hu]

theorem update_post_owner_shape (pid : Nat) (t? c? : Option String) (cu : User)
    (s : ServerState) (p : Post)
    (hp : alist_lookup s.posts_db pid = some p) (hown : p.author_id = cu.user_id) :
    update_post pid t? c? cu s =
      (.ok pid, { s with posts_db := (alist_set s.posts_db pid
        { title := t?.getD p.title, content := c?.getD p.content,
          author_id := p.author_id, created_at := p.created_at }) }) := by
  have hown' : ¬ p.author_id ≠ cu.user_id := fun hne => hne hown
  rcases t? with _ | t <;> rcases c? with _ | c <;>
    simp [update_post, hp, hown', Option.getD]

theorem alist_lookup_erase_none {α β : Type} [DecidableEq α] (l : List (α × β))
    (k pid : α) (h0 : alist_lookup l pid = none) :
    alist_lookup (alist_erase l k) pid = none := by
  cases hl : alist_lookup (alist_erase l k) pid with
  | none => rfl
  | some v =>
    have hmem := alist_mem_erase l k _ (alist_lookup_mem _ _ _ hl)
    rw [alist_lookup_none_iff] at h0
    exact (h0 (List.mem_map.mpr ⟨(pid, v), hmem, rfl⟩)).elim

theorem update_post_counters (pid : Nat) (t? c? : Option String) (cu : User)
    (s : ServerState) :
    (update_post pid t? c? cu s).2.user_counter = s.user_counter ∧
    (update_post pid t? c? cu s).2.post_counter = s.post_counter := by
  cases hp : alist_lookup s.posts_db pid with
  | none => simp [update_post, hp]
  | some p =>
    by_cases hown : p.author_id ≠ cu.user_id
    · simp [update_post, hp, hown]
    · simp [update_post, hp, hown]

theorem delete_post_counters (pid : Nat) (cu : User) (s : ServerState) :
    (delete_post pid cu s).2.user_counter = s.user_counter ∧
    (delete_post pid cu s).2.post_counter = s.post_counter := by
  cases hp : alist_lookup s.posts_db pid with
  | none => simp [delete_post, hp]
  | some p =>
    by_cases hown : p.author_id ≠ cu.user_id
    · simp [delete_post, hp, hown]
    · simp [delete_post, hp, hown]

theorem update_post_no_new_pid (pid0 : Nat) (t? c? : Option String) (cu : User)
    (s : ServerState) (pid : Nat) (h0 : alist_lookup s.posts_db pid = none) :
    alist_lookup (update_post pid0 t? c? cu s).2.posts_db pid = none := by
  cases hp : alist_lookup s.posts_db pid0 with
  | none => simp [update_post, hp, h0]
  | some p =>
    by_cases hown : p.author_id ≠ cu.user_id
    · simp [update_post, hp, hown, h0]
    · by_cases hpid : pid = pid0
      · subst hpid
        rw [hp] at h0
        cases h0
      · have hex : ∃ p2 : Post,
            (update_post pid0 t? c? cu s).2.posts_db = alist_set s.posts_db pid0 p2 := by
          rcases t? with _ | t <;> rcases c? with _ | c
          · exact ⟨p, by simp [update_post, hp, hown]⟩
          · exact ⟨{ p with content := c }, by simp [update_post, hp, hown]⟩
          · exact ⟨{ p with title := t }, by simp [update_post, hp, hown]⟩
          · exact ⟨{ p with title := t, content := c }, by simp [update_post, hp, hown]⟩
        obtain ⟨p2, hshape⟩ := hex
        rw [hshape, alist_lookup_set_ne _ _ _ _ hpid]
        exact h0

theorem delete_post_no_new_pid (pid0 : Nat) (cu : User) (s : ServerState) (pid : Nat)
    (h0 : alist_lookup s.posts_db pid = none) :
    alist_lookup (delete_post pid0 cu s).2.posts_db pid = none := by
  cases hp : alist_lookup s.posts_db pid0 with
  | none => simp [delete_post, hp, h0]
  | some p =>
    by_cases hown : p.author_id ≠ cu.user_id
    · simp [delete_post, hp, hown, h0]
    · have hshape : (delete_post pid0 cu s).2.posts_db = alist_erase s.posts_db pid0 := by
        simp [delete_post, hp, hown]
      rw [hshape]
      exact alist_lookup_erase_none s.posts_db pid0 pid h0

theorem step_counters_mono (op : Op) (s : ServerState) :
    s.user_counter ≤ (step op s).user_counter ∧
    s.post_counter ≤ (step op s).post_counter := by
  cases op with
  | register u p r =>
    show s.user_counter ≤ (register_user u p r s).2.user_counter ∧
      s.post_counter ≤ (register_user u p r s).2.post_counter
    by_cases hr : r = "reader" ∨ r = "author"
    · cases hu : alist_lookup s.users_db u with
      | some i =>
        rw [register_user_duplicate u p r s hr i hu]
        exact ⟨le_refl _, le_refl _⟩
      | none =>
        rw [register_user_success u p r s hr hu]
        exact ⟨Nat.le_succ _, le_refl _⟩
    · rw [register_user_invalidRole u p r s hr]
      exact ⟨le_refl _, le_refl _⟩
  | login u p t =>
    have hf := login_user_frame u p t s
    show s.user_counter ≤ (login_user u p t s).2.user_counter ∧
      s.post_counter ≤ (login_user u p t s).2.post_counter
    rw [hf.2.2.1, hf.2.2.2]
    exact ⟨le_refl _, le_refl _⟩
  | createPost tok ti c now =>
    rcases hcu : get_current_user tok now s with e | cu
    · rw [show step (Op.createPost tok ti c now) s = s by
        simp [step, create_post_handler, hcu]]
      exact ⟨le_refl _, le_refl _⟩
    · rcases hra : require_author_role cu with e | cu2
      · rw [show step (Op.createPost tok ti c now) s = s by
          simp [step, create_post_handler, hcu, hra]]
        exact ⟨le_refl _, le_refl _⟩
      · rw [show step (Op.createPost tok ti c now) s = (create_post ti c cu2 now s).2 by
          simp [step, create_post_handler, hcu, hra]]
        exact ⟨le_refl _, Nat.le_succ _⟩
  | updatePost tok pid0 t? c? now =>
    rcases hcu : get_current_user tok now s with e | cu
    · rw [show step (Op.updatePost tok pid0 t? c? now) s = s by
        simp [step, update_post_handler, hcu]]
      exact ⟨le_refl _, le_refl _⟩
    · rcases hra : require_author_role cu with e | cu2
      · rw [show step (Op.updatePost tok pid0 t? c? now) s = s by
          simp [step, update_post_handler, hcu, hra]]
        exact ⟨le_refl _, le_refl _⟩
      · rw [show step (Op.updatePost tok pid0 t? c? now) s =
            (update_post pid0 t? c? cu2 s).2 by
          simp [step, update_post_handler, hcu, hra]]
        have hc := update_post_counters pid0 t? c? cu2 s
        rw [hc.1, hc.2]
        exact ⟨le_refl _, le_refl _⟩
  | deletePost tok pid0 now =>
    rcases hcu : get_current_user tok now s with e | cu
    · rw [show step (Op.deletePost tok pid0 now) s = s by
        simp [step, delete_post_handler, hcu]]
      exact ⟨le_refl _, le_refl _⟩
    · rcases hra : require_author_role cu with e | cu2
      · rw [show step (Op.deletePost tok pid0 now) s = s by
          simp [step, delete_post_handler, hcu, hra]]
        exact ⟨le_refl _, le_refl _⟩
      · rw [show step (Op.deletePost tok pid0 now) s = (delete_post pid0 cu2 s).2 by
          simp [step, delete_post_handler, hcu, hra]]
        have hc := delete_post_counters pid0 cu2 s
        rw [hc.1, hc.2]
        exact ⟨le_refl _, le_refl _⟩

/-! ## Freshly assigned ids are the current counters -/

theorem step_new_user_id (op : Op) (s : ServerState) (u : String) (i : Identity)
    (h0 : alist_lookup s.users_db u = none)
    (h1 : alist_lookup (step op s).users_db u = some i) :
    i.user_id = s.user_counter ∧ s.user_counter < (step op s).user_counter := by
  cases op with
  | register u0 p r =>
    by_cases hr : r = "reader" ∨ r = "author"
    · cases hu : alist_lookup s.users_db u0 with
      | some j =>
        rw [show (step (Op.register u0 p r) s).users_db = s.users_db from by
          show (register_user u0 p r s).2.users_db = s.users_db
          rw [register_user_duplicate u0 p r s hr j hu], h0] at h1
        cases h1
      | none =>
        have hsucc := register_user_success u0 p r s hr hu
        by_cases huu : u = u0
        · subst huu
          have hself : alist_lookup (step (Op.register u p r) s).users_db u =
              some { password_hash := hash_password p, role := r,
                     user_id := s.user_counter } := by
            show alist_lookup (register_user u p r s).2.users_db u = _
            rw [hsucc]
            exact alist_lookup_set_self _ _ _
          rw [hself] at h1
          cases h1
          refine ⟨rfl, ?_⟩
          show s.user_counter < (register_user u p r s).2.user_counter
          rw [hsucc]
          exact Nat.lt_succ_self _
        · have hne : alist_lookup (step (Op.register u0 p r) s).users_db u =
              alist_lookup s.users_db u := by
            show alist_lookup (register_user u0 p r s).2.users_db u = _
            rw [hsucc]
            exact alist_lookup_set_ne _ _ _ _ huu
          rw [hne, h0] at h1
          cases h1
    · rw [show (step (Op.register u0 p r) s).users_db = s.users_db from by
        show (register_user u0 p r s).2.users_db = s.users_db
        rw [register_user_invalidRole u0 p r s hr], h0] at h1
      cases h1
  | login u0 p t =>
    rw [show (step (Op.login u0 p t) s).users_db = s.users_db from
      (login_user_frame u0 p t s).1, h0] at h1
    cases h1
  | createPost tok ti c now =>
    rw [show (step (Op.createPost tok ti c now) s).users_db = s.users_db from
      create_post_handler_users_db tok ti c now s, h0] at h1
    cases h1
  | updatePost tok pid0 t? c? now =>
    rw [show (step (Op.updatePost tok pid0 t? c? now) s).users_db = s.users_db from
      update_post_handler_users_db tok pid0 t? c? now s, h0] at h1
    cases h1
  | deletePost tok pid0 now =>
    rw [show (step (Op.deletePost tok pid0 now) s).users_db = s.users_db from
      delete_post_handler_users_db tok pid0 now s, h0] at h1
    cases h1

theorem step_new_post_id (op : Op) (s : ServerState) (pid : Nat) (post : Post)
    (h0 : alist_lookup s.posts_db pid = none)
    (h1 : alist_lookup (step op s).posts_db pid = some post) :
    pid = s.post_counter ∧ s.post_counter < (step op s).post_counter := by
  cases op with
  | register u p r =>
    rw [show (step (Op.register u p r) s).posts_db = s.posts_db from
      register_user_posts_db u p r s, h0] at h1
    cases h1
  | login u p t =>
    rw [show (step (Op.login u p t) s).posts_db = s.posts_db from
      (login_user_frame u p t s).2.1, h0] at h1
    cases h1
  | createPost tok ti c now =>
    rcases hcu : get_current_user tok now s with e | cu
    · rw [show step (Op.createPost tok ti c now) s = s by
        simp [step, create_post_handler, hcu], h0] at h1
      cases h1
    · rcases hra : require_author_role cu with e | cu2
      · rw [show step (Op.createPost tok ti c now) s = s by
          simp [step, create_post_handler, hcu, hra], h0] at h1
        cases h1
      · have hstep : step (Op.createPost tok ti c now) s = (create_post ti c cu2 now s).2 := by
          simp [step, create_post_handler, hcu, hra]
        by_cases hpid : pid = s.post_counter
        · refine ⟨hpid, ?_⟩
          rw [hstep]
          show s.post_counter < s.post_counter + 1
          exact Nat.lt_succ_self _
        · rw [hstep, show (create_post ti c cu2 now s).2.posts_db =
              alist_set s.posts_db s.post_counter
                { title := ti, content := c, author_id := cu2.user_id,
                  created_at := now } from rfl,
            alist_lookup_set_ne _ _ _ _ hpid, h0] at h1
          cases h1
  | updatePost tok pid0 t? c? now =>
    rcases hcu : get_current_user tok now s with e | cu
    · rw [show step (Op.updatePost tok pid0 t? c? now) s = s by
        simp [step, update_post_handler, hcu], h0] at h1
      cases h1
    · rcases hra : require_author_role cu with e | cu2
      · rw [show step (Op.updatePost tok pid0 t? c? now) s = s by
          simp [step, update_post_handler, hcu, hra], h0] at h1
        cases h1
      · rw [show step (Op.updatePost tok pid0 t? c? now) s =
            (update_post pid0 t? c? cu2 s).2 by
          simp [step, update_post_handler, hcu, hra],
          update_post_no_new_pid pid0 t? c? cu2 s pid h0] at h1
        cases h1
  | deletePost tok pid0 now =>
    rcases hcu : get_current_user tok now s with e | cu
    · rw [show step (Op.deletePost tok pid0 now) s = s by
        simp [step, delete_post_handler, hcu], h0] at h1
      cases h1
    · rcases hra : require_author_role cu with e | cu2
      · rw [show step (Op.deletePost tok pid0 now) s = s by
          simp [step, delete_post_handler, hcu, hra], h0] at h1
        cases h1
      · rw [show step (Op.deletePost tok pid0 now) s = (delete_post pid0 cu2 s).2 by
          simp [step, delete_post_handler, hcu, hra],
          delete_post_no_new_pid pid0 cu2 s pid h0] at h1
        cases h1

/-! ## Run-level consequences -/

theorem run_counters_mono (ops2 : List Op) (s : ServerState) :
    s.user_counter ≤ (run ops2 s).user_counter ∧
    s.post_counter ≤ (run ops2 s).post_counter := by
  induction ops2 generalizing s with
  | nil => exact ⟨le_refl _, le_refl _⟩
  | cons op rest ih =>
    have h1 := step_counters_mono op s
    have h2 := ih (step op s)
    exact ⟨le_trans h1.1 h2.1, le_trans h1.2 h2.2⟩

theorem run_users_preserved (ops2 : List Op) (s : ServerState) (u : String)
    (i : Identity) (h : alist_lookup s.users_db u = some i) :
    alist_lookup (run ops2 s).users_db u = some i := by
  induction ops2 generalizing s with
  | nil => exact h
  | cons op rest ih => exact ih (step op s) (step_users_preserved op s u i h)

theorem run_stale_pid_absent (ops2 : List Op) (s : ServerState) (pid : Nat)
    (hlt : pid < s.post_counter) (h : alist_lookup s.posts_db pid = none) :
    alist_lookup (run ops2 s).posts_db pid = none := by
  induction ops2 generalizing s with
  | nil => exact h
  | cons op rest ih =>
    have habs : alist_lookup (step op s).posts_db pid = none := by
      cases hl : alist_lookup (step op s).posts_db pid with
      | none => rfl
      | some post =>
        obtain ⟨he, _⟩ := step_new_post_id op s pid post h hl
        omega
    exact ih (step op s) (lt_of_lt_of_le hlt (step_counters_mono op s).2) habs

theorem run_post_author_preserved (ops2 : List Op) (s : ServerState)
    (hinv : StateInv s) (pid : Nat) (post post' : Post)
    (h : alist_lookup s.posts_db pid = some post)
    (h' : alist_lookup (run ops2 s).posts_db pid = some post') :
    post'.author_id = post.author_id := by
  induction ops2 generalizing s post with
  | nil =>
    rw [show run [] s = s from rfl, h] at h'
    cases h'
    rfl
  | cons op rest ih =>
    cases hl : alist_lookup (step op s).posts_db pid with
    | some post'' =>
      have ha := step_post_author_preserved op s hinv pid post post'' h hl
      have hrec := ih (step op s) (step_preserves_inv op s hinv) post'' hl h'
      rw [hrec, ha]
    | none =>
      have hlt : pid < s.post_counter :=
        hinv.2.2.2.2.1 (pid, post) (alist_lookup_mem _ _ _ h)
      have hlt' : pid < (step op s).post_counter :=
        lt_of_lt_of_le hlt (step_counters_mono op s).2
      have habs := run_stale_pid_absent rest (step op s) pid hlt' hl
      rw [show run (op :: rest) s = run rest (step op s) from rfl, habs] at h'
      cases h'

/-! ## The claims -/

/-- C1: for a user registered with role `R` and userId `N`, a token issued by
a successful `login` resolves through `get_current_user` to the principal
`{N, u, R}` at every time strictly before 15 minutes after issuance, and
fails with `Unauthenticated` at every time after the expiry time. -/
theorem c1_token_resolution (u p R hpw : String) (N : Nat) (s : ServerState)
    (tok : Token) (tl now : Nat)
    (hreg : alist_lookup s.users_db u =
      some { password_hash := hpw, role := R, user_id := N })
    (hlogin : (login_user u p tl s).1 = .ok tok) :
    (now < tl + ACCESS_TOKEN_EXPIRE_MINUTES * 60 →
       get_current_user tok now (login_user u p tl s).2 =
         .ok { user_id := N, username := u, role := R }) ∧
    (tl + ACCESS_TOKEN_EXPIRE_MINUTES * 60 < now →
       get_current_user tok now (login_user u p tl s).2 = .error .unauthenticated) := by
  have htok := login_user_ok_token u p tl s tok hlogin
  subst htok
  have hreg' : alist_lookup (login_user u p tl s).2.users_db u =
      some { password_hash := hpw, role := R, user_id := N } := by
    rw [(login_user_frame u p tl s).1]
    exact hreg
  have hg := get_current_user_of_issued_token u tl now (login_user u p tl s).2 _ hreg'
  exact ⟨fun hlt => hg.1 (Nat.le_of_lt hlt), fun hgt => hg.2 hgt⟩

/-- Witness for C1: alice registered as author (userId 1), login at time 100;
the token resolves at time 101 and the expiry side is vacuously checked. -/
theorem c1_token_resolution_witness :
    (alist_lookup (register_user "alice" "pw" "author" initState).2.users_db "alice" =
      some { password_hash := "bcrypt$pw", role := "author", user_id := 1 }) ∧
    ((login_user "alice" "pw" 100 (register_user "alice" "pw" "author" initState).2).1 =
      .ok (create_access_token "alice" 100)) ∧
    ((101 < 100 + ACCESS_TOKEN_EXPIRE_MINUTES * 60 →
       get_current_user (create_access_token "alice" 100) 101
         (login_user "alice" "pw" 100 (register_user "alice" "pw" "author" initState).2).2 =
         .ok { user_id := 1, username := "alice", role := "author" }) ∧
     (100 + ACCESS_TOKEN_EXPIRE_MINUTES * 60 < 101 →
       get_current_user (create_access_token "alice" 100) 101
         (login_user "alice" "pw" 100 (register_user "alice" "pw" "author" initState).2).2 =
         .error .unauthenticated)) :=
  ⟨by rfl, by rfl,
   c1_token_resolution "alice" "pw" "author" "bcrypt$pw" 1
     (register_user "alice" "pw" "author" initState).2
     (create_access_token "alice" 100) 100 101 (by rfl) (by rfl)⟩

/-- C2: for an authenticated author principal, `update_post`/`delete_post`
fail with `NotFound` when the postId is absent and with `Forbidden` when the
post belongs to another author; in both failure cases the whole server state
(in particular the post store) is returned unchanged. -/
theorem c2_update_delete_failures (pid : Nat) (t? c? : Option String) (cu : User)
    (s : ServerState) (hrole : cu.role = "author") :
    (alist_lookup s.posts_db pid = none →
       update_post pid t? c? cu s = (.error .notFound, s) ∧
       delete_post pid cu s = (.error .notFound, s)) ∧
    (∀ p : Post, alist_lookup s.posts_db pid = some p →
       p.author_id ≠ cu.user_id →
       update_post pid t? c? cu s = (.error .forbidden, s) ∧
       delete_post pid cu s = (.error .forbidden, s)) := by
  constructor
  · intro h
    exact ⟨by simp [update_post, h], by simp [delete_post, h]⟩
  · intro post hp hne
    exact ⟨by simp [update_post, hp, hne], by simp [delete_post, hp, hne]⟩

/-- Witness for C2: bob (userId 2, author) against a store holding only post 1
authored by userId 1; postId 7 is absent and post 1 is foreign. -/
theorem c2_update_delete_failures_witness :
    ((User.mk 2 "bob" "author").role = "author") ∧
    (alist_lookup (ServerState.mk []
        [(1, Post.mk "T" "C" 1 0)] [] 3 2).posts_db 7 = none →
       update_post 7 (some "X") none (User.mk 2 "bob" "author")
           (ServerState.mk [] [(1, Post.mk "T" "C" 1 0)] [] 3 2) =
         (.error .notFound, ServerState.mk [] [(1, Post.mk "T" "C" 1 0)] [] 3 2) ∧
       delete_post 7 (User.mk 2 "bob" "author")
           (ServerState.mk [] [(1, Post.mk "T" "C" 1 0)] [] 3 2) =
         (.error .notFound, ServerState.mk [] [(1, Post.mk "T" "C" 1 0)] [] 3 2)) ∧
    (∀ p : Post,
       alist_lookup (ServerState.mk []
          [(1, Post.mk "T" "C" 1 0)] [] 3 2).posts_db 1 = some p →
       p.author_id ≠ (User.mk 2 "bob" "author").user_id →
       update_post 1 (some "X") none (User.mk 2 "bob" "author")
           (ServerState.mk [] [(1, Post.mk "T" "C" 1 0)] [] 3 2) =
         (.error .forbidden, ServerState.mk [] [(1, Post.mk "T" "C" 1 0)] [] 3 2) ∧
       delete_post 1 (User.mk 2 "bob" "author")
           (ServerState.mk [] [(1, Post.mk "T" "C" 1 0)] [] 3 2) =
         (.error .forbidden, ServerState.mk [] [(1, Post.mk "T" "C" 1 0)] [] 3 2)) :=
  ⟨rfl,
   (c2_update_delete_failures 7 (some "X") none (User.mk 2 "bob" "author")
     (ServerState.mk [] [(1, Post.mk "T" "C" 1 0)] [] 3 2) rfl).1,
   (c2_update_delete_failures 1 (some "X") none (User.mk 2 "bob" "author")
     (ServerState.mk [] [(1, Post.mk "T" "C" 1 0)] [] 3 2) rfl).2⟩

/-- C3: starting with no rate-limit entry for `u`, six login attempts at
non-decreasing times inside one 60-second window pass the rate-limit gate
exactly for the first five (whatever the passwords and whether or not the
user exists); the sixth fails with `RateLimited` and leaves the state
untouched. -/
theorem c3_five_attempts_then_limited (u p1 p2 p3 p4 p5 p6 : String)
    (t1 t2 t3 t4 t5 t6 : Nat) (s0 s1 s2 s3 s4 s5 : ServerState)
    (h0 : alist_lookup s0.login_attempts u = none)
    (h12 : t1 ≤ t2) (h23 : t2 ≤ t3) (h34 : t3 ≤ t4) (h45 : t4 ≤ t5) (h56 : t5 ≤ t6)
    (hwin : t6 ≤ t1 + 60)
    (e1 : s1 = (login_user u p1 t1 s0).2) (e2 : s2 = (login_user u p2 t2 s1).2)
    (e3 : s3 = (login_user u p3 t3 s2).2) (e4 : s4 = (login_user u p4 t4 s3).2)
    (e5 : s5 = (login_user u p5 t5 s4).2) :
    (check_rate_limit u t1 s0.login_attempts).1 = true ∧
    (login_user u p1 t1 s0).1 ≠ .error .rateLimited ∧
    (check_rate_limit u t2 s1.login_attempts).1 = true ∧
    (login_user u p2 t2 s1).1 ≠ .error .rateLimited ∧
    (check_rate_limit u t3 s2.login_attempts).1 = true ∧
    (login_user u p3 t3 s2).1 ≠ .error .rateLimited ∧
    (check_rate_limit u t4 s3.login_attempts).1 = true ∧
    (login_user u p4 t4 s3).1 ≠ .error .rateLimited ∧
    (check_rate_limit u t5 s4.login_attempts).1 = true ∧
    (login_user u p5 t5 s4).1 ≠ .error .rateLimited ∧
    login_user u p6 t6 s5 = (.error .rateLimited, s5) := by
  have L1 := login_progress_first u p1 t1 s0 h0
  have hs1 : alist_lookup s1.login_attempts u =
      some { attempts := 1, last_attempt_time := t1 } := by
    rw [e1, L1.2.2]
    exact alist_lookup_set_self _ _ _
  have L2 := login_progress_next u p2 t2 s1 _ hs1
    (by show t2 ≤ t1 + 60; omega) (by show 1 < 5; omega)
  have hs2 : alist_lookup s2.login_attempts u =
      some { attempts := 2, last_attempt_time := t2 } := by
    rw [e2, L2.2.2]
    exact alist_lookup_set_self _ _ _
  have L3 := login_progress_next u p3 t3 s2 _ hs2
    (by show t3 ≤ t2 + 60; omega) (by show 2 < 5; omega)
  have hs3 : alist_lookup s3.login_attempts u =
      some { attempts := 3, last_attempt_time := t3 } := by
    rw [e3, L3.2.2]
    exact alist_lookup_set_self _ _ _
  have L4 := login_progress_next u p4 t4 s3 _ hs3
    (by show t4 ≤ t3 + 60; omega) (by show 3 < 5; omega)
  have hs4 : alist_lookup s4.login_attempts u =
      some { attempts := 4, last_attempt_time := t4 } := by
    rw [e4, L4.2.2]
    exact alist_lookup_set_self _ _ _
  have L5 := login_progress_next u p5 t5 s4 _ hs4
    (by show t5 ≤ t4 + 60; omega) (by show 4 < 5; omega)
  have hs5 : alist_lookup s5.login_attempts u =
      some { attempts := 5, last_attempt_time := t5 } := by
    rw [e5, L5.2.2]
    exact alist_lookup_set_self _ _ _
  have L6 := login_user_rateLimited u p6 t6 s5 _ hs5
    (by show t6 ≤ t5 + 60; omega) (by show 5 ≤ 5; omega)
  exact ⟨L1.1, L1.2.1, L2.1, L2.2.1, L3.1, L3.2.1, L4.1, L4.2.1, L5.1, L5.2.1, L6⟩

/-- Witness for C3: six attempts for "x" with password "p" at times 0..5,
starting from the empty initial state. -/
theorem c3_five_attempts_then_limited_witness :
    (check_rate_limit "x" 0 initState.login_attempts).1 = true ∧
    (login_user "x" "p" 0 initState).1 ≠ .error .rateLimited ∧
    (check_rate_limit "x" 1 (login_user "x" "p" 0 initState).2.login_attempts).1 = true ∧
    (login_user "x" "p" 1 (login_user "x" "p" 0 initState).2).1 ≠ .error .rateLimited ∧
    (check_rate_limit "x" 2 (login_user "x" "p" 1
      (login_user "x" "p" 0 initState).2).2.login_attempts).1 = true ∧
    (login_user "x" "p" 2 (login_user "x" "p" 1
      (login_user "x" "p" 0 initState).2).2).1 ≠ .error .rateLimited ∧
    (check_rate_limit "x" 3 (login_user "x" "p" 2 (login_user "x" "p" 1
      (login_user "x" "p" 0 initState).2).2).2.login_attempts).1 = true ∧
    (login_user "x" "p" 3 (login_user "x" "p" 2 (login_user "x" "p" 1
      (login_user "x" "p" 0 initState).2).2).2).1 ≠ .error .rateLimited ∧
    (check_rate_limit "x" 4 (login_user "x" "p" 3 (login_user "x" "p" 2
      (login_user "x" "p" 1 (login_user "x" "p" 0 initState).2).2).2).2.login_attempts).1 =
      true ∧
    (login_user "x" "p" 4 (login_user "x" "p" 3 (login_user "x" "p" 2
      (login_user "x" "p" 1 (login_user "x" "p" 0 initState).2).2).2).2).1 ≠
      .error .rateLimited ∧
    login_user "x" "p" 5 (login_user "x" "p" 4 (login_user "x" "p" 3 (login_user "x" "p" 2
      (login_user "x" "p" 1 (login_user "x" "p" 0 initState).2).2).2).2).2 =
      (.error .rateLimited,
       login_user "x" "p" 4 (login_user "x" "p" 3 (login_user "x" "p" 2
        (login_user "x" "p" 1 (login_user "x" "p" 0 initState).2).2).2).2 |>.2) :=
  c3_five_attempts_then_limited "x" "p" "p" "p" "p" "p" "p" 0 1 2 3 4 5
    initState
    (login_user "x" "p" 0 initState).2
    (login_user "x" "p" 1 (login_user "x" "p" 0 initState).2).2
    (login_user "x" "p" 2 (login_user "x" "p" 1 (login_user "x" "p" 0 initState).2).2).2
    (login_user "x" "p" 3 (login_user "x" "p" 2 (login_user "x" "p" 1
      (login_user "x" "p" 0 initState).2).2).2).2
    (login_user "x" "p" 4 (login_user "x" "p" 3 (login_user "x" "p" 2
      (login_user "x" "p" 1 (login_user "x" "p" 0 initState).2).2).2).2).2
    (by rfl) (by omega) (by omega) (by omega) (by omega) (by omega) (by omega)
    rfl rfl rfl rfl rfl

/-- C4 as stated is false on the code: after five admitted attempts for
"alice" at times 0, 10, 20, 30, 40 (one 60-second window whose FIRST attempt
is at time 0), the attempt at time 61 — more than 60 seconds after the first
attempt of the window — is still rejected with `RateLimited`, because
`check_rate_limit` measures the window from `last_attempt_time`, which
`increment_login_attempts` refreshes on every attempt. -/
theorem c4_counterexample :
    0 + 60 < 61 ∧
    (login_user "alice" "x" 61
      (login_user "alice" "x" 40
        (login_user "alice" "x" 30
          (login_user "alice" "x" 20
            (login_user "alice" "x" 10
              (login_user "alice" "x" 0 initState).2).2).2).2).2).1 =
      .error .rateLimited :=
  ⟨by omega, by rfl⟩

/-- C4 (amended): once more than 60 seconds have elapsed since the LAST
recorded attempt for a username — including a rate-limited one — the next
login attempt passes the rate-limit gate and the counter is reset so that it
reflects only the new attempt. -/
theorem c4_window_reset_from_last_attempt (u p : String) (now : Nat)
    (s : ServerState) (a : AttemptState)
    (h : alist_lookup s.login_attempts u = some a)
    (hgap : a.last_attempt_time + 60 < now) :
    (check_rate_limit u now s.login_attempts).1 = true ∧
    (login_user u p now s).1 ≠ .error .rateLimited ∧
    alist_lookup (login_user u p now s).2.login_attempts u =
      some { attempts := 1, last_attempt_time := now } := by
  have L := login_progress_reset u p now s a h hgap
  refine ⟨L.1, L.2.1, ?_⟩
  rw [L.2.2]
  exact alist_lookup_set_self _ _ _

/-- Witness for the amended C4: "alice" is rate-limited (5 recorded attempts,
the last at time 40); at time 101 the gate admits again with the counter
reset to 1. -/
theorem c4_window_reset_from_last_attempt_witness :
    (alist_lookup (ServerState.mk [] []
        [("alice", AttemptState.mk 5 40)] 1 1).login_attempts "alice" =
      some { attempts := 5, last_attempt_time := 40 }) ∧
    ((AttemptState.mk 5 40).last_attempt_time + 60 < 101) ∧
    ((check_rate_limit "alice" 101 (ServerState.mk [] []
        [("alice", AttemptState.mk 5 40)] 1 1).login_attempts).1 = true ∧
     (login_user "alice" "x" 101 (ServerState.mk [] []
        [("alice", AttemptState.mk 5 40)] 1 1)).1 ≠ .error .rateLimited ∧
     alist_lookup (login_user "alice" "x" 101 (ServerState.mk [] []
        [("alice", AttemptState.mk 5 40)] 1 1)).2.login_attempts "alice" =
       some { attempts := 1, last_attempt_time := 101 }) :=
  ⟨by rfl, by decide,
   c4_window_reset_from_last_attempt "alice" "x" 101
     (ServerState.mk [] [] [("alice", AttemptState.mk 5 40)] 1 1)
     (AttemptState.mk 5 40) (by rfl) (by decide)⟩

/-- C5: every login attempt that passes the rate-limit gate increments the
failure counter for that username exactly once — from the post-gate count `c`
to `c + 1` — for every password, hence also when the credentials are correct
and the login succeeds. -/
theorem c5_unconditional_increment (u p : String) (t : Nat) (s : ServerState)
    (c last : Nat)
    (hallow : (check_rate_limit u t s.login_attempts).1 = true)
    (hc : alist_lookup (check_rate_limit u t s.login_attempts).2 u =
      some { attempts := c, last_attempt_time := last }) :
    alist_lookup (login_user u p t s).2.login_attempts u =
      some { attempts := c + 1, last_attempt_time := t } := by
  have hrl : check_rate_limit u t s.login_attempts =
      (true, (check_rate_limit u t s.login_attempts).2) := by
    rcases hb : (check_rate_limit u t s.login_attempts).1
    · rw [hb] at hallow
      cases hallow
    · exact Prod.ext hb rfl
  have hsh := login_user_admitted_shape u p t s _ hrl
  rw [hsh.2]
  show alist_lookup
    (increment_login_attempts u t (check_rate_limit u t s.login_attempts).2) u = _
  simp only [increment_login_attempts, hc]
  exact alist_lookup_set_self _ _ _

/-- Witness for C5: alice registered with the CORRECT password "pw" logs in
successfully at time 7, and her counter still goes from 0 to 1. -/
theorem c5_unconditional_increment_witness :
    ((check_rate_limit "alice" 7
        (register_user "alice" "pw" "author" initState).2.login_attempts).1 = true) ∧
    (alist_lookup (check_rate_limit "alice" 7
        (register_user "alice" "pw" "author" initState).2.login_attempts).2 "alice" =
      some { attempts := 0, last_attempt_time := 7 }) ∧
    ((login_user "alice" "pw" 7 (register_user "alice" "pw" "author" initState).2).1 =
      .ok (create_access_token "alice" 7)) ∧
    alist_lookup (login_user "alice" "pw" 7
        (register_user "alice" "pw" "author" initState).2).2.login_attempts "alice" =
      some { attempts := 0 + 1, last_attempt_time := 7 } :=
  ⟨by rfl, by rfl, by rfl,
   c5_unconditional_increment "alice" "pw" 7
     (register_user "alice" "pw" "author" initState).2 0 7 (by rfl) (by rfl)⟩

/-- C6 as stated is false on the code: with "alice" already registered, a
second register for "alice" with role "admin" (and any password) fails with
`InvalidRole`, not `DuplicateIdentity`, because `register_user` validates the
role before checking username uniqueness. -/
theorem c6_counterexample :
    (register_user "alice" "x" "admin"
        (register_user "alice" "pw" "author" initState).2).1 = .error .invalidRole ∧
    (register_user "alice" "x" "admin"
        (register_user "alice" "pw" "author" initState).2).1 ≠
      .error .duplicateIdentity := by
  constructor
  · rfl
  · intro h
    rw [show (register_user "alice" "x" "admin"
        (register_user "alice" "pw" "author" initState).2).1 =
      (.error .invalidRole : Except ApiError String) from rfl] at h
    exact ApiError.noConfusion (Except.error.inj h)

/-- C6 (amended): a second register for an already-registered username fails
with `DuplicateIdentity` for every VALID role (reader or author) and every
password, and with `InvalidRole` for every invalid role; in both cases the
state — in particular the stored Identity — is returned unchanged. -/
theorem c6_duplicate_register (u p2 r2 : String) (s : ServerState) (i : Identity)
    (hreg : alist_lookup s.users_db u = some i) :
    (r2 = "reader" ∨ r2 = "author" →
       register_user u p2 r2 s = (.error .duplicateIdentity, s)) ∧
    (¬ (r2 = "reader" ∨ r2 = "author") →
       register_user u p2 r2 s = (.error .invalidRole, s)) :=
  ⟨fun hr => register_user_duplicate u p2 r2 s hr i hreg,
   fun hr => register_user_invalidRole u p2 r2 s hr⟩

/-- Witness for the amended C6: a duplicate register of "alice" with role
"reader" and a different password fails with `DuplicateIdentity` and keeps
the state. -/
theorem c6_duplicate_register_witness :
    (alist_lookup (register_user "alice" "pw" "author" initState).2.users_db "alice" =
      some { password_hash := "bcrypt$pw", role := "author", user_id := 1 }) ∧
    (("reader" : String) = "reader" ∨ ("reader" : String) = "author" →
       register_user "alice" "other" "reader"
           (register_user "alice" "pw" "author" initState).2 =
         (.error .duplicateIdentity, (register_user "alice" "pw" "author" initState).2)) :=
  ⟨by rfl,
   (c6_duplicate_register "alice" "other" "reader"
     (register_user "alice" "pw" "author" initState).2
     { password_hash := "bcrypt$pw", role := "author", user_id := 1 } (by rfl)).1⟩

/-- C7 as stated is false on the code: the register response carries no
userId, only a message.  Registering "alice" into the fresh store (userId 1)
and registering "alice" after "bob" (userId 2) return the SAME success value,
so the return value cannot be the assigned userId. -/
theorem c7_counterexample :
    (register_user "alice" "pw" "author" initState).1 =
      (register_user "alice" "pw" "author"
        (register_user "bob" "x" "reader" initState).2).1 ∧
    (alist_lookup (register_user "alice" "pw" "author" initState).2.users_db
        "alice").map Identity.user_id = some 1 ∧
    (alist_lookup (register_user "alice" "pw" "author"
        (register_user "bob" "x" "reader" initState).2).2.users_db
        "alice").map Identity.user_id = some 2 :=
  ⟨by rfl, by rfl, by rfl⟩

/-- C7 (amended): a successful register assigns the current `user_counter` as
the new Identity's userId, stores that Identity, and bumps the counter — but
returns only a success message naming the username and role, not the userId. -/
theorem c7_register_assigns_userid (u p r : String) (s : ServerState)
    (hr : r = "reader" ∨ r = "author")
    (hfresh : alist_lookup s.users_db u = none) :
    (register_user u p r s).1 =
      .ok ("User " ++ u ++ " registered successfully as " ++ r) ∧
    alist_lookup (register_user u p r s).2.users_db u =
      some { password_hash := hash_password p, role := r, user_id := s.user_counter } ∧
    (register_user u p r s).2.user_counter = s.user_counter + 1 := by
  rw [register_user_success u p r s hr hfresh]
  exact ⟨rfl, alist_lookup_set_self _ _ _, rfl⟩

/-- Witness for the amended C7: registering "carol" as reader into the fresh
store stores userId 1 and returns the message. -/
theorem c7_register_assigns_userid_witness :
    (("reader" : String) = "reader" ∨ ("reader" : String) = "author") ∧
    (alist_lookup initState.users_db "carol" = none) ∧
    ((register_user "carol" "pw" "reader" initState).1 =
      .ok ("User " ++ "carol" ++ " registered successfully as " ++ "reader") ∧
     alist_lookup (register_user "carol" "pw" "reader" initState).2.users_db "carol" =
       some { password_hash := hash_password "pw", role := "reader",
              user_id := initState.user_counter } ∧
     (register_user "carol" "pw" "reader" initState).2.user_counter =
       initState.user_counter + 1) :=
  ⟨Or.inl rfl, by rfl,
   c7_register_assigns_userid "carol" "pw" "reader" initState (Or.inl rfl) (by rfl)⟩

/-- C8: an update by the owning author overwrites exactly the request's
present fields, keeps absent fields, never touches `author_id`, `created_at`
or the post's key, leaves every other post's binding unchanged, and leaves
all other state components unchanged. -/
theorem c8_partial_update (pid : Nat) (t? c? : Option String) (cu : User)
    (s : ServerState) (p : Post) (hrole : cu.role = "author")
    (hp : alist_lookup s.posts_db pid = some p)
    (hown : p.author_id = cu.user_id) :
    (update_post pid t? c? cu s).1 = .ok pid ∧
    alist_lookup (update_post pid t? c? cu s).2.posts_db pid =
      some { title := t?.getD p.title, content := c?.getD p.content,
             author_id := p.author_id, created_at := p.created_at } ∧
    (∀ pid' : Nat, pid' ≠ pid →
       alist_lookup (update_post pid t? c? cu s).2.posts_db pid' =
         alist_lookup s.posts_db pid') ∧
    (update_post pid t? c? cu s).2.users_db = s.users_db ∧
    (update_post pid t? c? cu s).2.login_attempts = s.login_attempts ∧
    (update_post pid t? c? cu s).2.user_counter = s.user_counter ∧
    (update_post pid t? c? cu s).2.post_counter = s.post_counter := by
  rw [update_post_owner_shape pid t? c? cu s p hp hown]
  refine ⟨rfl, alist_lookup_set_self _ _ _, ?_, rfl, rfl, rfl, rfl⟩
  intro pid' hne
  exact alist_lookup_set_ne _ _ _ _ hne

/-- Witness for C8: alice (userId 1) updates only the title of her post 1;
the content, author and timestamp survive and the unrelated post 2 is
untouched. -/
theorem c8_partial_update_witness :
    ((User.mk 1 "alice" "author").role = "author") ∧
    (alist_lookup (ServerState.mk [] [(1, Post.mk "T" "C" 1 5), (2, Post.mk "U" "D" 1 6)]
        [] 2 3).posts_db 1 = some (Post.mk "T" "C" 1 5)) ∧
    ((Post.mk "T" "C" 1 5).author_id = (User.mk 1 "alice" "author").user_id) ∧
    ((update_post 1 (some "T2") none (User.mk 1 "alice" "author")
        (ServerState.mk [] [(1, Post.mk "T" "C" 1 5), (2, Post.mk "U" "D" 1 6)] [] 2 3)).1 =
      .ok 1 ∧
     alist_lookup (update_post 1 (some "T2") none (User.mk 1 "alice" "author")
        (ServerState.mk [] [(1, Post.mk "T" "C" 1 5), (2, Post.mk "U" "D" 1 6)]
          [] 2 3)).2.posts_db 1 =
       some { title := (some "T2").getD (Post.mk "T" "C" 1 5).title,
              content := (none : Option String).getD (Post.mk "T" "C" 1 5).content,
              author_id := (Post.mk "T" "C" 1 5).author_id,
              created_at := (Post.mk "T" "C" 1 5).created_at } ∧
     (∀ pid' : Nat, pid' ≠ 1 →
        alist_lookup (update_post 1 (some "T2") none (User.mk 1 "alice" "author")
          (ServerState.mk [] [(1, Post.mk "T" "C" 1 5), (2, Post.mk "U" "D" 1 6)]
            [] 2 3)).2.posts_db pid' =
          alist_lookup (ServerState.mk []
            [(1, Post.mk "T" "C" 1 5), (2, Post.mk "U" "D" 1 6)] [] 2 3).posts_db pid') ∧
     (update_post 1 (some "T2") none (User.mk 1 "alice" "author")
        (ServerState.mk [] [(1, Post.mk "T" "C" 1 5), (2, Post.mk "U" "D" 1 6)]
          [] 2 3)).2.users_db =
       (ServerState.mk [] [(1, Post.mk "T" "C" 1 5), (2, Post.mk "U" "D" 1 6)]
          [] 2 3).users_db ∧
     (update_post 1 (some "T2") none (User.mk 1 "alice" "author")
        (ServerState.mk [] [(1, Post.mk "T" "C" 1 5), (2, Post.mk "U" "D" 1 6)]
          [] 2 3)).2.login_attempts =
       (ServerState.mk [] [(1, Post.mk "T" "C" 1 5), (2, Post.mk "U" "D" 1 6)]
          [] 2 3).login_attempts ∧
     (update_post 1 (some "T2") none (User.mk 1 "alice" "author")
        (ServerState.mk [] [(1, Post.mk "T" "C" 1 5), (2, Post.mk "U" "D" 1 6)]
          [] 2 3)).2.user_counter =
       (ServerState.mk [] [(1, Post.mk "T" "C" 1 5), (2, Post.mk "U" "D" 1 6)]
          [] 2 3).user_counter ∧
     (update_post 1 (some "T2") none (User.mk 1 "alice" "author")
        (ServerState.mk [] [(1, Post.mk "T" "C" 1 5), (2, Post.mk "U" "D" 1 6)]
          [] 2 3)).2.post_counter =
       (ServerState.mk [] [(1, Post.mk "T" "C" 1 5), (2, Post.mk "U" "D" 1 6)]
          [] 2 3).post_counter) :=
  ⟨rfl, by rfl, rfl,
   c8_partial_update 1 (some "T2") none (User.mk 1 "alice" "author")
     (ServerState.mk [] [(1, Post.mk "T" "C" 1 5), (2, Post.mk "U" "D" 1 6)] [] 2 3)
     (Post.mk "T" "C" 1 5) rfl (by rfl) rfl⟩

/-- C9: every state reachable by register/login/create/update/delete requests
from the initial state satisfies the §3 invariants — unique usernames, user
ids unique and strictly below `user_counter`, post ids unique and strictly
below `post_counter`, every post owned by a registered Identity with role
author.  Registered identity bindings (role and userId included) survive
every further run unchanged, and a surviving post's author never changes.
Both counters are monotone along every further run, and an id that newly
appears under one more request is exactly the current counter, which then
strictly increases — so ids are assigned strictly increasing.  Finally, a
postId that was in use at this state and has since been deleted is never
assigned again by any later request: ids are never reused even after
deletes. -/
theorem c9_reachable_invariants (ops : List Op) :
    StateInv (run ops initState) ∧
    (∀ (ops2 : List Op) (u : String) (i : Identity),
       alist_lookup (run ops initState).users_db u = some i →
       alist_lookup (run ops2 (run ops initState)).users_db u = some i) ∧
    (∀ (ops2 : List Op) (pid : Nat) (post post' : Post),
       alist_lookup (run ops initState).posts_db pid = some post →
       alist_lookup (run ops2 (run ops initState)).posts_db pid = some post' →
       post'.author_id = post.author_id) ∧
    (∀ ops2 : List Op,
       (run ops initState).user_counter ≤ (run ops2 (run ops initState)).user_counter ∧
       (run ops initState).post_counter ≤ (run ops2 (run ops initState)).post_counter) ∧
    (∀ (op : Op) (u : String) (i : Identity),
       alist_lookup (run ops initState).users_db u = none →
       alist_lookup (step op (run ops initState)).users_db u = some i →
       i.user_id = (run ops initState).user_counter ∧
       (run ops initState).user_counter < (step op (run ops initState)).user_counter) ∧
    (∀ (op : Op) (pid : Nat) (post : Post),
       alist_lookup (run ops initState).posts_db pid = none →
       alist_lookup (step op (run ops initState)).posts_db pid = some post →
       pid = (run ops initState).post_counter ∧
       (run ops initState).post_counter < (step op (run ops initState)).post_counter) ∧
    (∀ (ops2 : List Op) (op : Op) (pid : Nat) (post : Post),
       alist_lookup (run ops initState).posts_db pid = some post →
       alist_lookup (run ops2 (run ops initState)).posts_db pid = none →
       ∀ post' : Post,
         alist_lookup (step op (run ops2 (run ops initState))).posts_db pid ≠
           some post') := by
  have hinv := run_preserves_inv ops initState initState_inv
  refine ⟨hinv,
    fun ops2 u i h => run_users_preserved ops2 (run ops initState) u i h,
    fun ops2 pid post post' h h' =>
      run_post_author_preserved ops2 (run ops initState) hinv pid post post' h h',
    fun ops2 => run_counters_mono ops2 (run ops initState),
    fun op u i h0 h1 => step_new_user_id op (run ops initState) u i h0 h1,
    fun op pid post h0 h1 => step_new_post_id op (run ops initState) pid post h0 h1,
    ?_⟩
  intro ops2 op pid post hused habs post' hsome
  have hlt : pid < (run ops initState).post_counter :=
    hinv.2.2.2.2.1 (pid, post) (alist_lookup_mem _ _ _ hused)
  have hmono := (run_counters_mono ops2 (run ops initState)).2
  obtain ⟨he, _⟩ :=
    step_new_post_id op (run ops2 (run ops initState)) pid post' habs hsome
  omega

/-- C10: the rate limiter gates login before the username-existence check:
attempts for an UNREGISTERED username create and increment attempt state and
fail with `InvalidCredentials` while under the cap, and at the cap the next
attempt inside the window fails with `RateLimited` (not `InvalidCredentials`),
leaving the state unchanged. -/
theorem c10_rate_limit_precedes_user_check (u p : String) (t : Nat)
    (s : ServerState) (hu : alist_lookup s.users_db u = none) :
    (alist_lookup s.login_attempts u = none →
       (login_user u p t s).1 = .error .invalidCredentials ∧
       alist_lookup (login_user u p t s).2.login_attempts u =
         some { attempts := 1, last_attempt_time := t }) ∧
    (∀ a : AttemptState, alist_lookup s.login_attempts u = some a →
       t ≤ a.last_attempt_time + 60 →
       (a.attempts < 5 →
          (login_user u p t s).1 = .error .invalidCredentials ∧
          alist_lookup (login_user u p t s).2.login_attempts u =
            some { attempts := a.attempts + 1, last_attempt_time := t }) ∧
       (5 ≤ a.attempts → login_user u p t s = (.error .rateLimited, s))) := by
  constructor
  · intro hla
    have L := login_progress_first u p t s hla
    refine ⟨login_user_unknown_user u p t s _ (check_rate_limit_of_none u t _ hla) hu, ?_⟩
    rw [L.2.2]
    exact alist_lookup_set_self _ _ _
  · intro a hla hwin
    constructor
    · intro hc
      have L := login_progress_next u p t s a hla hwin hc
      refine ⟨login_user_unknown_user u p t s _
        (check_rate_limit_under u t _ a hla hwin hc) hu, ?_⟩
      rw [L.2.2]
      exact alist_lookup_set_self _ _ _
    · intro hc
      exact login_user_rateLimited u p t s a hla hwin hc

/-- Witness for C10: "ghost" is never registered; its first attempt at time 3
creates attempt state and fails with InvalidCredentials, and from a capped
state (5 attempts, last at time 3) the attempt at time 10 is RateLimited. -/
theorem c10_rate_limit_precedes_user_check_witness :
    (alist_lookup (ServerState.mk [] []
        [("ghost", AttemptState.mk 5 3)] 1 1).users_db "ghost" = none) ∧
    (∀ a : AttemptState,
       alist_lookup (ServerState.mk [] []
          [("ghost", AttemptState.mk 5 3)] 1 1).login_attempts "ghost" = some a →
       10 ≤ a.last_attempt_time + 60 →
       (a.attempts < 5 →
          (login_user "ghost" "p" 10 (ServerState.mk [] []
              [("ghost", AttemptState.mk 5 3)] 1 1)).1 = .error .invalidCredentials ∧
          alist_lookup (login_user "ghost" "p" 10 (ServerState.mk [] []
              [("ghost", AttemptState.mk 5 3)] 1 1)).2.login_attempts "ghost" =
            some { attempts := a.attempts + 1, last_attempt_time := 10 }) ∧
       (5 ≤ a.attempts →
          login_user "ghost" "p" 10 (ServerState.mk [] []
              [("ghost", AttemptState.mk 5 3)] 1 1) =
            (.error .rateLimited,
             ServerState.mk [] [] [("ghost", AttemptState.mk 5 3)] 1 1))) ∧
    ((alist_lookup initState.login_attempts "ghost" = none →
       (login_user "ghost" "p" 3 initState).1 = .error .invalidCredentials ∧
       alist_lookup (login_user "ghost" "p" 3 initState).2.login_attempts "ghost" =
         some { attempts := 1, last_attempt_time := 3 })) :=
  ⟨by rfl,
   (c10_rate_limit_precedes_user_check "ghost" "p" 10
     (ServerState.mk [] [] [("ghost", AttemptState.mk 5 3)] 1 1) (by rfl)).2,
   (c10_rate_limit_precedes_user_check "ghost" "p" 3 initState (by rfl)).1⟩
